import Mathlib

/-!
Verification development for the rust-jsonpath-rfc9535 repository: a shallow
embedding of its JSONPath lexer, parser, escape decoders, and evaluators,
with theorems settling the frozen claims about slices, escape decoding,
singular queries, error taxonomy, normalized paths, and the equivalence of
the two evaluators.

Modelling conventions: Rust i64/u32/usize become Int/Nat with explicit
wrap-around where the source relies on it; f64 is modelled as Rat (no claim
settled here depends on IEEE-754 rounding); serde_json::Value becomes the
JsonValue inductive; fallible Rust functions returning Result become Except.
-/

set_option maxHeartbeats 2000000
set_option maxRecDepth 8000

/-- JSON values as the evaluator sees them (serde_json::Value). serde_json
splits numbers into i64 and f64; floats are modelled as rationals. Object
member order is the stored order, as with serde_json's preserve_order map. -/
inductive JsonValue where
  | null : JsonValue
  | bool (b : Bool) : JsonValue
  | int (n : Int) : JsonValue
  | float (x : Rat) : JsonValue
  | str (s : String) : JsonValue
  | arr (elems : List JsonValue) : JsonValue
  | obj (members : List (String × JsonValue)) : JsonValue

mutual

/-- Structural equality of JSON values (serde_json's PartialEq; an i64 number
and an f64 number are never equal there, matching the int/float split). -/
def jsonEq : JsonValue → JsonValue → Bool
  | JsonValue.null, JsonValue.null => true
  | JsonValue.bool a, JsonValue.bool b => a == b
  | JsonValue.int a, JsonValue.int b => a == b
  | JsonValue.float a, JsonValue.float b => a == b
  | JsonValue.str a, JsonValue.str b => a == b
  | JsonValue.arr a, JsonValue.arr b => jsonEqList a b
  | JsonValue.obj a, JsonValue.obj b => jsonEqMembers a b
  | _, _ => false

/-- Elementwise equality of JSON arrays. -/
def jsonEqList : List JsonValue → List JsonValue → Bool
  | [], [] => true
  | a :: as_, b :: bs => jsonEq a b && jsonEqList as_ bs
  | _, _ => false

/-- Pairwise equality of JSON object entries (same keys in the same order). -/
def jsonEqMembers : List (String × JsonValue) → List (String × JsonValue) → Bool
  | [], [] => true
  | (ka, va) :: as_, (kb, vb) :: bs => ka == kb && jsonEq va vb && jsonEqMembers as_ bs
  | _, _ => false

end

/-- Member lookup on a JSON value: serde_json's Value::get by key. Returns
the first member with the given name; None when the value is not an object
or has no such member. -/
def JsonValue.getMember (v : JsonValue) (name : String) : Option JsonValue :=
  match v with
  | JsonValue.obj members => lookupMember members name
  | _ => none
where
  lookupMember : List (String × JsonValue) → String → Option JsonValue
    | [], _ => none
    | (k, val) :: rest, n => if k = n then some val else lookupMember rest n

/-- Array view of a JSON value: serde_json's Value::as_array. -/
def JsonValue.asArray (v : JsonValue) : Option (List JsonValue) :=
  match v with
  | JsonValue.arr elems => some elems
  | _ => none

namespace Serde

/-- A result node: a value and its location rendered eagerly as a string
(crates/jsonpath_rfc9535_serde/src/ast.rs, struct Node). -/
structure Node where
  value : JsonValue
  location : String

/-- The single-quote character, used when rendering normalized paths. -/
def sq : String := "\'"

/-- Node::new_child_member: extend a node's location with a member step.
The name is interpolated verbatim between single quotes. -/
def Node.new_child_member (n : Node) (value : JsonValue) (loc : String) : Node :=
  { value := value, location := n.location ++ "[" ++ sq ++ loc ++ sq ++ "]" }

/-- Node::new_child_element: extend a node's location with an element step. -/
def Node.new_child_element (n : Node) (value : JsonValue) (loc : Nat) : Node :=
  { value := value, location := n.location ++ "[" ++ toString loc ++ "]" }

/-- NodeList: an ordered list of result nodes. -/
def NodeList := List Node

/-- Logical operators of filter expressions. -/
inductive LogicalOperator where
  | and
  | or
  deriving DecidableEq, Repr

/-- Comparison operators of filter expressions. -/
inductive ComparisonOperator where
  | eq
  | ne
  | ge
  | gt
  | le
  | lt
  deriving DecidableEq, Repr

mutual

/-- A parsed JSONPath query: an ordered sequence of segments
(crates/jsonpath_rfc9535_serde/src/ast.rs, struct Query). -/
inductive Query where
  | mk (segments : List Segment) : Query

/-- A query segment: child, recursive-descent, or the end-of-input marker. -/
inductive Segment where
  | child (selectors : List Selector) : Segment
  | recursive (selectors : List Selector) : Segment
  | eoi : Segment

/-- A selector within a segment. -/
inductive Selector where
  | name (name : String) : Selector
  | index (index : Int) : Selector
  | slice (start stop step : Option Int) : Selector
  | wild : Selector
  | filter (expression : FilterExpression) : Selector

/-- A filter expression tree. -/
inductive FilterExpression where
  | tru : FilterExpression
  | fls : FilterExpression
  | null : FilterExpression
  | str (value : String) : FilterExpression
  | int (value : Int) : FilterExpression
  | float (value : Rat) : FilterExpression
  | not (expression : FilterExpression) : FilterExpression
  | logical (left : FilterExpression) (operator : LogicalOperator)
      (right : FilterExpression) : FilterExpression
  | comparison (left : FilterExpression) (operator : ComparisonOperator)
      (right : FilterExpression) : FilterExpression
  | relativeQuery (query : Query) : FilterExpression
  | rootQuery (query : Query) : FilterExpression
  | function (name : String) (args : List FilterExpression) : FilterExpression

end

/-- The segments of a query. -/
def Query.segments : Query → List Segment
  | Query.mk segments => segments

/-- FilterExpression::is_literal. -/
def FilterExpression.is_literal : FilterExpression → Bool
  | FilterExpression.tru => true
  | FilterExpression.fls => true
  | FilterExpression.null => true
  | FilterExpression.str _ => true
  | FilterExpression.int _ => true
  | FilterExpression.float _ => true
  | _ => false

/-- Query::is_singular (serde variant, using an all-segments check): every
segment must be a Child segment holding exactly one Name or Index selector. -/
def Query.is_singular (q : Query) : Bool :=
  q.segments.all fun segment =>
    match segment with
    | Segment.child selectors =>
        decide (selectors.length = 1) &&
          (match selectors.head? with
           | some (Selector.name _) => true
           | some (Selector.index _) => true
           | _ => false)
    | _ => false

/-- The value of a filter sub-expression
(crates/jsonpath_rfc9535_serde/src/ast.rs, enum FilterExpressionResult). -/
inductive FilterExpressionResult where
  | bool (b : Bool) : FilterExpressionResult
  | int (n : Int) : FilterExpressionResult
  | float (x : Rat) : FilterExpressionResult
  | null : FilterExpressionResult
  | str (s : String) : FilterExpressionResult
  | array (v : JsonValue) : FilterExpressionResult
  | object (v : JsonValue) : FilterExpressionResult
  | nodes (ns : List Node) : FilterExpressionResult
  | nothing : FilterExpressionResult

/-- FilterExpressionResult::from_json_value. The source's i64 fallback for
numbers that fit neither f64 nor i64 is unrepresentable in this model, so
numbers map directly onto the int/float split. -/
def FilterExpressionResult.from_json_value : JsonValue → FilterExpressionResult
  | JsonValue.bool v => FilterExpressionResult.bool v
  | JsonValue.null => FilterExpressionResult.null
  | JsonValue.int n => FilterExpressionResult.int n
  | JsonValue.float x => FilterExpressionResult.float x
  | JsonValue.str s => FilterExpressionResult.str s
  | JsonValue.arr elems => FilterExpressionResult.array (JsonValue.arr elems)
  | JsonValue.obj members => FilterExpressionResult.object (JsonValue.obj members)

/-- Type classes of the function extension system. -/
inductive ExpressionType where
  | logical
  | nodes
  | value
  deriving DecidableEq, Repr

/-- A registered function signature. -/
structure FunctionSignature where
  param_types : List ExpressionType
  return_type : ExpressionType

/-- A function extension: its signature and its implementation, which takes
the evaluated arguments and returns a filter value (the FunctionExtension
trait; call is total at the type level, as in the trait). -/
structure FunctionExtension where
  sig : FunctionSignature
  call : List FilterExpressionResult → FilterExpressionResult

/-- The evaluation environment: a register of named function extensions. -/
structure Environment where
  function_register : String → Option FunctionExtension

/-- Per-evaluation context: the environment and the query argument (root). -/
structure QueryContext where
  env : Environment
  root : JsonValue

/-- How evaluation can fail to produce a node list: the evaluator's only
raised error (a missing function implementation), or a Rust panic — the
unreachable branch in eq and the unchecked index in unpack_result. -/
inductive EvalError where
  | nameError (msg : String) : EvalError
  | panic : EvalError
  deriving DecidableEq, Repr

/-- An i64 cast to usize: non-negative values pass through, negative values
wrap modulo 2^64. -/
def usizeOf (i : Int) : Nat := (i % (2 : Int) ^ 64).toNat

/-- norm_index: normalize a possibly-negative array index. For a negative
index no smaller than -length, count from the end; otherwise the index is
cast to usize as in the source (a very negative index wraps to a huge
usize, which then fails the array bound check). -/
def norm_index (index : Int) (length : Nat) : Nat :=
  if index < 0 ∧ index.natAbs ≤ length then ((length : Int) + index).toNat
  else usizeOf index

/-- Forward walk of the slice loop: indices i, i+step, ... while i < stop
(the Rust (n_start..n_stop).step_by(n_step) loop, with step > 0). -/
def sliceFwd (array : List JsonValue) (i stop step : Int) : List (Int × JsonValue) :=
  if h : 0 < step ∧ i < stop then
    (i, (array.get? i.toNat).getD JsonValue.null) :: sliceFwd array (i + step) stop step
  else []
termination_by (stop - i).toNat
decreasing_by omega

/-- Backward walk of the slice loop: indices i, i+step, ... while i > stop
(the Rust while-loop, with step < 0). -/
def sliceBwd (array : List JsonValue) (i stop step : Int) : List (Int × JsonValue) :=
  if h : step < 0 ∧ stop < i then
    (i, (array.get? i.toNat).getD JsonValue.null) :: sliceBwd array (i + step) stop step
  else []
termination_by (i - stop).toNat
decreasing_by omega

/-- The slice function shared by the serde and locations crates
(ast.rs::slice and selector.rs::slice): compute defaults, clamp start to
[0, L-1] and stop to [-1, L] (start to L-1 and stop to -1 for a negative
step default), then walk by step. Array indexing is by Vec::get(i).unwrap;
the walk provably stays in bounds, and the model substitutes null where the
source would panic. -/
def slice (array : List JsonValue) (start stop step : Option Int) :
    List (Int × JsonValue) :=
  let array_length : Int := array.length
  if array_length = 0 then []
  else
    let n_step := step.getD 1
    if n_step = 0 then []
    else
      let n_start :=
        match start with
        | some i => if i < 0 then max (array_length + i) 0 else min i (array_length - 1)
        | none => if n_step < 0 then array_length - 1 else 0
      let n_stop :=
        match stop with
        | some i => if i < 0 then max (array_length + i) (-1) else min i array_length
        | none => if n_step < 0 then -1 else array_length
      if n_step > 0 then sliceFwd array n_start n_stop n_step
      else sliceBwd array n_start n_stop n_step

/-- is_truthy: Nothing is false, a node list is truthy when non-empty, a
boolean is itself, everything else is truthy. -/
def is_truthy : FilterExpressionResult → Bool
  | FilterExpressionResult.nothing => false
  | FilterExpressionResult.nodes ns => !ns.isEmpty
  | FilterExpressionResult.bool v => v == true
  | _ => true

/-- is_truthy_ref: the by-reference twin of is_truthy in the source. -/
def is_truthy_ref : FilterExpressionResult → Bool
  | FilterExpressionResult.nothing => false
  | FilterExpressionResult.nodes ns => !ns.isEmpty
  | FilterExpressionResult.bool v => v == true
  | _ => true

/-- logical: conjunction or disjunction of truthiness. -/
def logical (left : FilterExpressionResult) (op : LogicalOperator)
    (right : FilterExpressionResult) : Bool :=
  match op with
  | LogicalOperator.and => is_truthy left && is_truthy right
  | LogicalOperator.or => is_truthy left || is_truthy right

/-- nodes_or_singular: replace a singleton node list by its node's value. -/
def nodes_or_singular (rv : FilterExpressionResult) : FilterExpressionResult :=
  match rv with
  | FilterExpressionResult.nodes ns =>
      if ns.length = 1 then
        FilterExpressionResult.from_json_value (((ns.head?).getD
          { value := JsonValue.null, location := "" }).value)
      else FilterExpressionResult.nodes ns
  | _ => rv

/-- eq: equality of filter values. The (Nodes, Nodes) case with a non-empty
side is the source's unreachable branch and yields the panic marker. -/
def eq (left right : FilterExpressionResult) : Except EvalError Bool :=
  match left, right with
  | FilterExpressionResult.nothing, FilterExpressionResult.nothing => Except.ok true
  | FilterExpressionResult.nodes ns, FilterExpressionResult.nothing =>
      Except.ok ns.isEmpty
  | FilterExpressionResult.nothing, FilterExpressionResult.nodes ns =>
      Except.ok ns.isEmpty
  | FilterExpressionResult.nothing, _ => Except.ok false
  | _, FilterExpressionResult.nothing => Except.ok false
  | FilterExpressionResult.nodes l, FilterExpressionResult.nodes r =>
      if l.isEmpty && r.isEmpty then Except.ok true
      else Except.error EvalError.panic
  | FilterExpressionResult.int l, FilterExpressionResult.int r => Except.ok (l == r)
  | FilterExpressionResult.float l, FilterExpressionResult.float r => Except.ok (l == r)
  | FilterExpressionResult.int l, FilterExpressionResult.float r =>
      Except.ok ((l : Rat) == r)
  | FilterExpressionResult.float l, FilterExpressionResult.int r =>
      Except.ok (l == (r : Rat))
  | FilterExpressionResult.null, FilterExpressionResult.null => Except.ok true
  | FilterExpressionResult.bool l, FilterExpressionResult.bool r => Except.ok (l == r)
  | FilterExpressionResult.str l, FilterExpressionResult.str r => Except.ok (l == r)
  | FilterExpressionResult.array l, FilterExpressionResult.array r =>
      Except.ok (jsonEq l r)
  | FilterExpressionResult.object l, FilterExpressionResult.object r =>
      Except.ok (jsonEq l r)
  | _, _ => Except.ok false

/-- lt: less-than on filter values; defined for strings and numbers only,
false on every other pair (including bool/bool). -/
def lt (left right : FilterExpressionResult) : Bool :=
  match left, right with
  | FilterExpressionResult.str l, FilterExpressionResult.str r => l < r
  | FilterExpressionResult.bool _, FilterExpressionResult.bool _ => false
  | FilterExpressionResult.int l, FilterExpressionResult.int r => l < r
  | FilterExpressionResult.float l, FilterExpressionResult.float r => l < r
  | FilterExpressionResult.int l, FilterExpressionResult.float r => (l : Rat) < r
  | FilterExpressionResult.float l, FilterExpressionResult.int r => l < (r : Rat)
  | _, _ => false

/-- compare: singleton coercion of both operands, then dispatch on the
operator. Ge and Le test lt first and only consult eq when lt fails, as the
short-circuit or does in the source. -/
def compare (left : FilterExpressionResult) (op : ComparisonOperator)
    (right : FilterExpressionResult) : Except EvalError Bool :=
  let l := nodes_or_singular left
  let r := nodes_or_singular right
  match op with
  | ComparisonOperator.eq => eq l r
  | ComparisonOperator.ne => (eq l r).map (fun b => !b)
  | ComparisonOperator.lt => Except.ok (lt l r)
  | ComparisonOperator.gt => Except.ok (lt r l)
  | ComparisonOperator.ge => if lt r l then Except.ok true else eq l r
  | ComparisonOperator.le => if lt l r then Except.ok true else eq l r

/-- unpack_result: for a non-Nodes parameter slot, coerce an empty node list
to Nothing and a singleton to its value. The source indexes the signature's
parameter list with unwrap; an out-of-range slot is the panic marker. -/
def unpack_result (rv : FilterExpressionResult) (param_types : List ExpressionType)
    (index : Nat) : Except EvalError FilterExpressionResult :=
  match param_types.get? index with
  | none => Except.error EvalError.panic
  | some t =>
      if t = ExpressionType.nodes then Except.ok rv
      else
        match rv with
        | FilterExpressionResult.nodes ns =>
            match ns with
            | [] => Except.ok FilterExpressionResult.nothing
            | [n] => Except.ok (FilterExpressionResult.from_json_value n.value)
            | _ => Except.ok rv
        | _ => Except.ok rv

mutual

/-- visit: the self-and-descendants pre-order visit of a node, the node
itself first, then its members in stored order or elements by index. -/
def visit (node : Node) : List Node :=
  node ::
    (match hv : node.value with
     | JsonValue.obj members => visitMembers node members
     | JsonValue.arr elems => visitElems node elems 0
     | _ => [])
termination_by (sizeOf node.value, 0)
decreasing_by
  all_goals simp_all
  all_goals omega

/-- Object part of visit: extend with the visit of every member child. -/
def visitMembers (node : Node) : List (String × JsonValue) → List Node
  | [] => []
  | (k, v) :: rest => visit (node.new_child_member v k) ++ visitMembers node rest
termination_by members => (sizeOf members, 1)
decreasing_by
  all_goals simp_all [Node.new_child_member]
  all_goals omega

/-- Array part of visit: extend with the visit of every element child. -/
def visitElems (node : Node) : List JsonValue → Nat → List Node
  | [], _ => []
  | v :: rest, i => visit (node.new_child_element v i) ++ visitElems node rest (i + 1)
termination_by elems _ => (sizeOf elems, 1)
decreasing_by
  all_goals simp_all [Node.new_child_element]
  all_goals omega

end

/-- Collect an in-order list of fallible results, stopping at the first
error: the Result-collecting behaviour of Iterator::collect after
flatten_ok has been applied (each Ok holds a list of nodes). -/
def collectFlatten (results : List (Except EvalError (List Node))) :
    Except EvalError (List Node) :=
  match results with
  | [] => Except.ok []
  | Except.error e :: _ => Except.error e
  | Except.ok ns :: rest =>
      match collectFlatten rest with
      | Except.error e => Except.error e
      | Except.ok tail => Except.ok (ns ++ tail)

/-- Collect an in-order list of fallible items, stopping at the first error:
Iterator::collect into a Result of a Vec. -/
def collectResults {α : Type} (results : List (Except EvalError α)) :
    Except EvalError (List α) :=
  match results with
  | [] => Except.ok []
  | Except.error e :: _ => Except.error e
  | Except.ok x :: rest =>
      match collectResults rest with
      | Except.error e => Except.error e
      | Except.ok tail => Except.ok (x :: tail)

/-- Pair every list element with its index, starting at 0: Iterator::enumerate. -/
def enumerate (elems : List JsonValue) : List (Nat × JsonValue) :=
  (List.range elems.length).zip elems

mutual

/-- Query::find: seed with the root node at location $ and fold the
segments over the node list with Segment::resolve. -/
def Query.find (q : Query) (value : JsonValue) (env : Environment) :
    Except EvalError (List Node) :=
  segmentsFold q.segments [{ value := value, location := "$" }]
    { env := env, root := value }
termination_by (sizeOf q, 0, 0)
decreasing_by
  rcases q with ⟨segs⟩
  simp [Query.segments]
  omega

/-- The try_fold over segments inside Query::find. -/
def segmentsFold (segments : List Segment) (nodes : List Node)
    (context : QueryContext) : Except EvalError (List Node) :=
  match segments with
  | [] => Except.ok nodes
  | segment :: rest =>
      match Segment.resolve segment nodes context with
      | Except.error e => Except.error e
      | Except.ok nodes2 => segmentsFold rest nodes2 context
termination_by (sizeOf segments, 0, 0)

/-- Query::find_loop: the explicit-loop twin of Query::find. -/
def Query.find_loop (q : Query) (value : JsonValue) (env : Environment) :
    Except EvalError (List Node) :=
  segmentsFoldLoop q.segments [{ value := value, location := "$" }]
    { env := env, root := value }
termination_by (sizeOf q, 0, 0)
decreasing_by
  rcases q with ⟨segs⟩
  simp [Query.segments]
  omega

/-- The for loop over segments inside Query::find_loop. -/
def segmentsFoldLoop (segments : List Segment) (nodes : List Node)
    (context : QueryContext) : Except EvalError (List Node) :=
  match segments with
  | [] => Except.ok nodes
  | segment :: rest =>
      match Segment.resolve_loop segment nodes context with
      | Except.error e => Except.error e
      | Except.ok nodes2 => segmentsFoldLoop rest nodes2 context
termination_by (sizeOf segments, 0, 0)

/-- Segment::resolve: the iterator-chain resolver. A child segment flat-maps
the selectors over each node; a recursive segment first flat-maps visit over
the nodes; Eoi passes the nodes through. -/
def Segment.resolve (segment : Segment) (nodes : List Node)
    (context : QueryContext) : Except EvalError (List Node) :=
  match segment with
  | Segment.child selectors => selResolveNodes nodes selectors context
  | Segment.recursive selectors =>
      selResolveNodes (nodes.flatMap visit) selectors context
  | Segment.eoi => Except.ok nodes
termination_by (sizeOf segment, 0, 0)

/-- Node-major, then selector-major application of Selector::resolve with
flatten_ok collection, shared by both Segment::resolve branches. -/
def selResolveNodes (nodes : List Node) (selectors : List Selector)
    (context : QueryContext) : Except EvalError (List Node) :=
  match nodes with
  | [] => Except.ok []
  | node :: rest =>
      match selResolveOne node selectors context with
      | Except.error e => Except.error e
      | Except.ok first =>
          match selResolveNodes rest selectors context with
          | Except.error e => Except.error e
          | Except.ok tail => Except.ok (first ++ tail)
termination_by (sizeOf selectors, 1, nodes.length)

/-- One node's share of selResolveNodes: concatenate Selector::resolve over
the selectors in order. -/
def selResolveOne (node : Node) (selectors : List Selector)
    (context : QueryContext) : Except EvalError (List Node) :=
  match selectors with
  | [] => Except.ok []
  | selector :: rest =>
      match Selector.resolve selector node context with
      | Except.error e => Except.error e
      | Except.ok first =>
          match selResolveOne node rest context with
          | Except.error e => Except.error e
          | Except.ok tail => Except.ok (first ++ tail)
termination_by (sizeOf selectors, 0, 0)

/-- Segment::resolve_loop: the explicit-loop resolver. Its child branch
calls Selector::resolve; its recursive branch visits every node and calls
Selector::resolve_loop, exactly as in the source. -/
def Segment.resolve_loop (segment : Segment) (nodes : List Node)
    (context : QueryContext) : Except EvalError (List Node) :=
  match segment with
  | Segment.child selectors => loopChild nodes selectors context
  | Segment.recursive selectors => loopRec nodes selectors context
  | Segment.eoi => Except.ok nodes
termination_by (sizeOf segment, 0, 0)

/-- Child-segment loop of Segment::resolve_loop (extends with
Selector::resolve). -/
def loopChild (nodes : List Node) (selectors : List Selector)
    (context : QueryContext) : Except EvalError (List Node) :=
  match nodes with
  | [] => Except.ok []
  | node :: rest =>
      match loopChildNode node selectors context with
      | Except.error e => Except.error e
      | Except.ok first =>
          match loopChild rest selectors context with
          | Except.error e => Except.error e
          | Except.ok tail => Except.ok (first ++ tail)
termination_by (sizeOf selectors, 1, nodes.length)

/-- Inner selector loop of the child branch of Segment::resolve_loop. -/
def loopChildNode (node : Node) (selectors : List Selector)
    (context : QueryContext) : Except EvalError (List Node) :=
  match selectors with
  | [] => Except.ok []
  | selector :: rest =>
      match Selector.resolve selector node context with
      | Except.error e => Except.error e
      | Except.ok first =>
          match loopChildNode node rest context with
          | Except.error e => Except.error e
          | Except.ok tail => Except.ok (first ++ tail)
termination_by (sizeOf selectors, 0, 0)

/-- Recursive-segment loop of Segment::resolve_loop. -/
def loopRec (nodes : List Node) (selectors : List Selector)
    (context : QueryContext) : Except EvalError (List Node) :=
  match nodes with
  | [] => Except.ok []
  | node :: rest =>
      match loopRecVisited (visit node) selectors context with
      | Except.error e => Except.error e
      | Except.ok first =>
          match loopRec rest selectors context with
          | Except.error e => Except.error e
          | Except.ok tail => Except.ok (first ++ tail)
termination_by (sizeOf selectors, 3, nodes.length)

/-- Loop over the visited nodes of one input node. -/
def loopRecVisited (visited : List Node) (selectors : List Selector)
    (context : QueryContext) : Except EvalError (List Node) :=
  match visited with
  | [] => Except.ok []
  | node :: rest =>
      match loopRecNode node selectors context with
      | Except.error e => Except.error e
      | Except.ok first =>
          match loopRecVisited rest selectors context with
          | Except.error e => Except.error e
          | Except.ok tail => Except.ok (first ++ tail)
termination_by (sizeOf selectors, 2, visited.length)

/-- Inner selector loop of the recursive branch of Segment::resolve_loop
(extends with Selector::resolve_loop). -/
def loopRecNode (node : Node) (selectors : List Selector)
    (context : QueryContext) : Except EvalError (List Node) :=
  match selectors with
  | [] => Except.ok []
  | selector :: rest =>
      match Selector.resolve_loop selector node context with
      | Except.error e => Except.error e
      | Except.ok first =>
          match loopRecNode node rest context with
          | Except.error e => Except.error e
          | Except.ok tail => Except.ok (first ++ tail)
termination_by (sizeOf selectors, 0, 0)

/-- Selector::resolve: the iterator-chain selector semantics. Name yields
the member when present, Index the normalized element, Slice the slice
walk, Wild all children, Filter the children whose predicate evaluation is
truthy (evaluations are collected first, stopping at the first error, then
filtered, matching map/filter_ok/map_ok/collect). -/
def Selector.resolve (selector : Selector) (node : Node)
    (context : QueryContext) : Except EvalError (List Node) :=
  match selector with
  | Selector.name n =>
      match node.value.getMember n with
      | some v => Except.ok [node.new_child_member v n]
      | none => Except.ok []
  | Selector.index i =>
      match node.value.asArray with
      | some array =>
          let norm := norm_index i array.length
          match array.get? norm with
          | some v => Except.ok [node.new_child_element v norm]
          | none => Except.ok []
      | none => Except.ok []
  | Selector.slice start stop step =>
      match node.value.asArray with
      | some array =>
          Except.ok ((slice array start stop step).map
            (fun p => node.new_child_element p.2 p.1.toNat))
      | none => Except.ok []
  | Selector.wild =>
      match node.value with
      | JsonValue.arr elems =>
          Except.ok ((enumerate elems).map (fun p => node.new_child_element p.2 p.1))
      | JsonValue.obj members =>
          Except.ok (members.map (fun p => node.new_child_member p.2 p.1))
      | _ => Except.ok []
  | Selector.filter expression =>
      match node.value with
      | JsonValue.arr elems =>
          match collectResults (mapEvalArr expression (enumerate elems) context) with
          | Except.error e => Except.error e
          | Except.ok triples =>
              Except.ok ((triples.filter (fun t => is_truthy_ref t.2.2)).map
                (fun t => node.new_child_element t.2.1 t.1))
      | JsonValue.obj members =>
          match collectResults (mapEvalObj expression members context) with
          | Except.error e => Except.error e
          | Except.ok triples =>
              Except.ok ((triples.filter (fun t => is_truthy_ref t.2.2)).map
                (fun t => node.new_child_member t.2.1 t.1))
      | _ => Except.ok []
termination_by (sizeOf selector, 0, 0)

/-- Evaluate the filter expression against each array element, pairing the
index and element with the result (the map step of the Filter arm). -/
def mapEvalArr (expression : FilterExpression) (pairs : List (Nat × JsonValue))
    (context : QueryContext) :
    List (Except EvalError (Nat × JsonValue × FilterExpressionResult)) :=
  match pairs with
  | [] => []
  | (i, v) :: rest =>
      (match FilterExpression.evaluate expression v context with
       | Except.error e => Except.error e
       | Except.ok r => Except.ok (i, v, r)) :: mapEvalArr expression rest context
termination_by (sizeOf expression, 1, pairs.length)

/-- Evaluate the filter expression against each object member, pairing the
key and value with the result. -/
def mapEvalObj (expression : FilterExpression)
    (members : List (String × JsonValue)) (context : QueryContext) :
    List (Except EvalError (String × JsonValue × FilterExpressionResult)) :=
  match members with
  | [] => []
  | (k, v) :: rest =>
      (match FilterExpression.evaluate expression v context with
       | Except.error e => Except.error e
       | Except.ok r => Except.ok (k, v, r)) :: mapEvalObj expression rest context
termination_by (sizeOf expression, 1, members.length)

/-- Selector::resolve_loop: the explicit-loop selector semantics. -/
def Selector.resolve_loop (selector : Selector) (node : Node)
    (context : QueryContext) : Except EvalError (List Node) :=
  match selector with
  | Selector.name n =>
      match node.value.getMember n with
      | some v => Except.ok [node.new_child_member v n]
      | none => Except.ok []
  | Selector.index i =>
      match node.value.asArray with
      | some array =>
          let norm := norm_index i array.length
          match array.get? norm with
          | some v => Except.ok [node.new_child_element v norm]
          | none => Except.ok []
      | none => Except.ok []
  | Selector.slice start stop step =>
      match node.value.asArray with
      | some array =>
          Except.ok ((slice array start stop step).map
            (fun p => node.new_child_element p.2 p.1.toNat))
      | none => Except.ok []
  | Selector.wild =>
      match node.value with
      | JsonValue.arr elems =>
          Except.ok ((enumerate elems).map (fun p => node.new_child_element p.2 p.1))
      | JsonValue.obj members =>
          Except.ok (members.map (fun p => node.new_child_member p.2 p.1))
      | _ => Except.ok []
  | Selector.filter expression =>
      match node.value with
      | JsonValue.arr elems => loopFilterArr expression node (enumerate elems) context
      | JsonValue.obj members => loopFilterObj expression node members context
      | _ => Except.ok []
termination_by (sizeOf selector, 0, 0)

/-- Array loop of the Filter arm of Selector::resolve_loop. -/
def loopFilterArr (expression : FilterExpression) (node : Node)
    (pairs : List (Nat × JsonValue)) (context : QueryContext) :
    Except EvalError (List Node) :=
  match pairs with
  | [] => Except.ok []
  | (i, v) :: rest =>
      match FilterExpression.evaluate expression v context with
      | Except.error e => Except.error e
      | Except.ok r =>
          match loopFilterArr expression node rest context with
          | Except.error e => Except.error e
          | Except.ok tail =>
              Except.ok (if is_truthy r then node.new_child_element v i :: tail else tail)
termination_by (sizeOf expression, 1, pairs.length)

/-- Object loop of the Filter arm of Selector::resolve_loop. -/
def loopFilterObj (expression : FilterExpression) (node : Node)
    (members : List (String × JsonValue)) (context : QueryContext) :
    Except EvalError (List Node) :=
  match members with
  | [] => Except.ok []
  | (k, v) :: rest =>
      match FilterExpression.evaluate expression v context with
      | Except.error e => Except.error e
      | Except.ok r =>
          match loopFilterObj expression node rest context with
          | Except.error e => Except.error e
          | Except.ok tail =>
              Except.ok (if is_truthy r then node.new_child_member v k :: tail else tail)
termination_by (sizeOf expression, 1, members.length)

/-- FilterExpression::evaluate: literals to themselves, not/logical/
comparison via the helpers, embedded queries via Query::find (a relative
query re-roots at the current value), and function calls via the register,
with per-slot unpack_result coercion of the evaluated arguments. -/
def FilterExpression.evaluate (e : FilterExpression) (current : JsonValue)
    (context : QueryContext) : Except EvalError FilterExpressionResult :=
  match e with
  | FilterExpression.tru => Except.ok (FilterExpressionResult.bool true)
  | FilterExpression.fls => Except.ok (FilterExpressionResult.bool false)
  | FilterExpression.null => Except.ok FilterExpressionResult.null
  | FilterExpression.str value => Except.ok (FilterExpressionResult.str value)
  | FilterExpression.int value => Except.ok (FilterExpressionResult.int value)
  | FilterExpression.float value => Except.ok (FilterExpressionResult.float value)
  | FilterExpression.not expression =>
      match FilterExpression.evaluate expression current context with
      | Except.error e => Except.error e
      | Except.ok rv =>
          Except.ok (if !is_truthy rv then FilterExpressionResult.bool true
            else FilterExpressionResult.bool false)
  | FilterExpression.logical left operator right =>
      match FilterExpression.evaluate left current context with
      | Except.error e => Except.error e
      | Except.ok lv =>
          match FilterExpression.evaluate right current context with
          | Except.error e => Except.error e
          | Except.ok rv =>
              Except.ok (if logical lv operator rv then FilterExpressionResult.bool true
                else FilterExpressionResult.bool false)
  | FilterExpression.comparison left operator right =>
      match FilterExpression.evaluate left current context with
      | Except.error e => Except.error e
      | Except.ok lv =>
          match FilterExpression.evaluate right current context with
          | Except.error e => Except.error e
          | Except.ok rv =>
              match compare lv operator rv with
              | Except.error e => Except.error e
              | Except.ok b =>
                  Except.ok (if b then FilterExpressionResult.bool true
                    else FilterExpressionResult.bool false)
  | FilterExpression.relativeQuery query =>
      match Query.find query current context.env with
      | Except.error e => Except.error e
      | Except.ok ns => Except.ok (FilterExpressionResult.nodes ns)
  | FilterExpression.rootQuery query =>
      match Query.find query context.root context.env with
      | Except.error e => Except.error e
      | Except.ok ns => Except.ok (FilterExpressionResult.nodes ns)
  | FilterExpression.function name args =>
      match context.env.function_register name with
      | none =>
          Except.error (EvalError.nameError ("missing function definition for " ++ name))
      | some fn_ext =>
          match argsEval args current context fn_ext.sig.param_types 0 with
          | Except.error e => Except.error e
          | Except.ok vals => Except.ok (fn_ext.call vals)
termination_by (sizeOf e, 0, 0)

/-- The argument pipeline of a function call: evaluate each argument in
order and immediately unpack it for its parameter slot, stopping at the
first error. -/
def argsEval (args : List FilterExpression) (current : JsonValue)
    (context : QueryContext) (param_types : List ExpressionType) (i : Nat) :
    Except EvalError (List FilterExpressionResult) :=
  match args with
  | [] => Except.ok []
  | a :: rest =>
      match FilterExpression.evaluate a current context with
      | Except.error e => Except.error e
      | Except.ok rv =>
          match unpack_result rv param_types i with
          | Except.error e => Except.error e
          | Except.ok u =>
              match argsEval rest current context param_types (i + 1) with
              | Except.error e => Except.error e
              | Except.ok tail => Except.ok (u :: tail)
termination_by (sizeOf args, 0, 0)

end

end Serde

/-- Forward index walk with Python range semantics: i, i+step, ... while
i < stop (step > 0). Spec-side definition for the slice-symmetry claim. -/
def pyRangeFwd (i stop step : Int) : List Int :=
  if h : 0 < step ∧ i < stop then i :: pyRangeFwd (i + step) stop step else []
termination_by (stop - i).toNat
decreasing_by omega

/-- Backward index walk with Python range semantics: i, i+step, ... while
i > stop (step < 0). -/
def pyRangeBwd (i stop step : Int) : List Int :=
  if h : step < 0 ∧ stop < i then i :: pyRangeBwd (i + step) stop step else []
termination_by (i - stop).toNat
decreasing_by omega

/-- The index list of a Python-semantics slice over a sequence of the given
length, as the spec's slice-symmetry property describes it: for a positive
step, a negative bound counts from the end and both bounds clamp to
[0, length]; for a negative step both bounds clamp to [-1, length-1] with
defaults length-1 and -1; a zero step gives nothing. -/
def range_with_python_semantics (start stop step : Option Int) (length : Nat) :
    List Int :=
  let L : Int := length
  let stp := step.getD 1
  if stp = 0 then []
  else if stp > 0 then
    let lo := match start with
      | some i => if i < 0 then max (L + i) 0 else min i L
      | none => 0
    let hi := match stop with
      | some i => if i < 0 then max (L + i) 0 else min i L
      | none => L
    pyRangeFwd lo hi stp
  else
    let lo := match start with
      | some i => if i < 0 then max (L + i) (-1) else min i (L - 1)
      | none => L - 1
    let hi := match stop with
      | some i => if i < 0 then max (L + i) (-1) else min i (L - 1)
      | none => -1
    pyRangeBwd lo hi stp

namespace RQ

/-- The error taxonomy of the main crate (errors.rs, enum JSONPathErrorType). -/
inductive JSONPathErrorType where
  | lexerError
  | syntaxError
  | typeError
  | nameError
  deriving DecidableEq, Repr

/-- A JSONPath error: a kind tag, a message and a byte span into the query
(the span-carrying JSONPathError used by the lexer and parser). -/
structure JSONPathError where
  kind : JSONPathErrorType
  msg : String
  span : Nat × Nat
  deriving DecidableEq, Repr

/-- JSONPathError::syntax. -/
def JSONPathError.syntaxErr (msg : String) (span : Nat × Nat) : JSONPathError :=
  { kind := JSONPathErrorType.syntaxError, msg := msg, span := span }

/-- JSONPathError::typ. -/
def JSONPathError.typ (msg : String) (span : Nat × Nat) : JSONPathError :=
  { kind := JSONPathErrorType.typeError, msg := msg, span := span }

/-- JSONPathError::name. -/
def JSONPathError.nameErr (msg : String) (span : Nat × Nat) : JSONPathError :=
  { kind := JSONPathErrorType.nameError, msg := msg, span := span }

/-- Token kinds of the lexer (token.rs, enum TokenType). True/False become
tru/fls to avoid clashing with the Lean constants. -/
inductive TokenType where
  | eoq
  | error (msg : String)
  | colon
  | comma
  | doubleDot
  | filter
  | index (value : String)
  | lBracket
  | name (value : String)
  | rBracket
  | root
  | wild
  | and
  | current
  | doubleQuoteString (value : String)
  | eq
  | fls
  | float (value : String)
  | function (name : String)
  | ge
  | gt
  | int (value : String)
  | le
  | lParen
  | lt
  | ne
  | not
  | null
  | or
  | rParen
  | singleQuoteString (value : String)
  | tru
  deriving DecidableEq, Repr

/-- A token: a kind and a byte span (token.rs, struct Token). -/
structure Token where
  kind : TokenType
  span : Nat × Nat
  deriving DecidableEq, Repr

/-- Logical operators of the main crate's AST (query.rs). -/
inductive LogicalOperator where
  | and
  | or
  deriving DecidableEq, Repr

/-- Comparison operators of the main crate's AST (query.rs). -/
inductive ComparisonOperator where
  | eq
  | ne
  | ge
  | gt
  | le
  | lt
  deriving DecidableEq, Repr

mutual

/-- The main crate's parsed query (query.rs, struct Query). -/
inductive Query where
  | mk (segments : List Segment) : Query

/-- A segment with its source span (query.rs, enum Segment). -/
inductive Segment where
  | child (span : Nat × Nat) (selectors : List Selector) : Segment
  | recursive (span : Nat × Nat) (selectors : List Selector) : Segment

/-- A selector with its source span (query.rs, enum Selector). -/
inductive Selector where
  | name (span : Nat × Nat) (name : String) : Selector
  | index (span : Nat × Nat) (index : Int) : Selector
  | slice (span : Nat × Nat) (start stop step : Option Int) : Selector
  | wild (span : Nat × Nat) : Selector
  | filter (span : Nat × Nat) (expression : FilterExpression) : Selector

/-- The untagged filter expression variants (query.rs,
enum FilterExpressionType). -/
inductive FilterExpressionType where
  | tru : FilterExpressionType
  | fls : FilterExpressionType
  | null : FilterExpressionType
  | str (value : String) : FilterExpressionType
  | int (value : Int) : FilterExpressionType
  | float (value : Rat) : FilterExpressionType
  | not (expression : FilterExpression) : FilterExpressionType
  | logical (left : FilterExpression) (operator : LogicalOperator)
      (right : FilterExpression) : FilterExpressionType
  | comparison (left : FilterExpression) (operator : ComparisonOperator)
      (right : FilterExpression) : FilterExpressionType
  | relativeQuery (query : Query) : FilterExpressionType
  | rootQuery (query : Query) : FilterExpressionType
  | function (name : String) (args : List FilterExpression) : FilterExpressionType

/-- A filter expression: a span and a kind (query.rs, struct
FilterExpression). -/
inductive FilterExpression where
  | mk (span : Nat × Nat) (kind : FilterExpressionType) : FilterExpression

end

/-- The segments of a query. -/
def Query.segments : Query → List Segment
  | Query.mk segments => segments

/-- The span of a filter expression. -/
def FilterExpression.span : FilterExpression → Nat × Nat
  | FilterExpression.mk span _ => span

/-- The kind of a filter expression. -/
def FilterExpression.kind : FilterExpression → FilterExpressionType
  | FilterExpression.mk _ kind => kind

/-- FilterExpression::is_literal (query.rs). -/
def FilterExpression.is_literal (e : FilterExpression) : Bool :=
  match e.kind with
  | FilterExpressionType.tru => true
  | FilterExpressionType.fls => true
  | FilterExpressionType.null => true
  | FilterExpressionType.str _ => true
  | FilterExpressionType.int _ => true
  | FilterExpressionType.float _ => true
  | _ => false

/-- The loop body of Query::is_singular (query.rs): a Child segment with a
single Name or Index selector continues the loop, anything else returns
false immediately. -/
def isSingularLoop : List Segment → Bool
  | [] => true
  | Segment.child _ selectors :: rest =>
      if selectors.length = 1 &&
          (match selectors.head? with
           | some (Selector.name _ _) => true
           | some (Selector.index _ _) => true
           | _ => false) then
        isSingularLoop rest
      else false
  | Segment.recursive _ _ :: _ => false

/-- Query::is_singular (query.rs, the explicit-loop variant). -/
def Query.is_singular (q : Query) : Bool :=
  isSingularLoop q.segments

end RQ

/-- One hexadecimal digit's value. -/
def hexDigitVal (c : Char) : Option Nat :=
  if '0' ≤ c ∧ c ≤ '9' then some (c.toNat - '0'.toNat)
  else if 'a' ≤ c ∧ c ≤ 'f' then some (c.toNat - 'a'.toNat + 10)
  else if 'A' ≤ c ∧ c ≤ 'F' then some (c.toNat - 'A'.toNat + 10)
  else none

/-- Fold hexadecimal digits into a number; none on a non-digit or on an
empty list. -/
def hexFold (digits : List Char) : Option Nat :=
  match digits with
  | [] => none
  | _ => go digits 0
where
  go : List Char → Nat → Option Nat
    | [], acc => some acc
    | c :: rest, acc =>
        match hexDigitVal c with
        | some d => go rest (acc * 16 + d)
        | none => none

/-- u32::from_str_radix with radix 16: hexadecimal digits with an optional
leading plus sign. -/
def parseHexU32 (digits : List Char) : Option Nat :=
  match digits with
  | '+' :: rest => hexFold rest
  | _ => hexFold digits

/-- Whether char::from_u32 succeeds: not a surrogate and at most 0x10FFFF. -/
def charValid (cp : Nat) : Bool :=
  decide (cp < 0xD800 ∨ (0xE000 ≤ cp ∧ cp ≤ 0x10FFFF))

namespace RQ

/-- The loop of unescape_string (src/src/parser.rs): walk the characters,
decoding one escape or copying one character per iteration. The source
indexes a char vector and checks bounds against its length; here the
characters not yet consumed are the list argument and the bounds checks
become shape patterns on it, with the running index and the total length
kept for the source's error spans. Two adjacent backslash-u escapes are
always combined with the surrogate-pair formula, whatever the first code
point is, exactly as in the source; and the source maps backslash-b to
U+000C and backslash-f to U+0008. -/
def unescapeLoop (token_span : Nat × Nat) (length : Nat) :
    List Char → Nat → String → Except JSONPathError String
  | [], _, rv => Except.ok rv
  | ['\\'], index, rv =>
      Except.error (JSONPathError.syntaxErr "invalid escape"
        (token_span.1 + index, index + 1))
  | '\\' :: '"' :: rest2, index, rv =>
      unescapeLoop token_span length rest2 (index + 2) (rv.push '"')
  | '\\' :: '\\' :: rest2, index, rv =>
      unescapeLoop token_span length rest2 (index + 2) (rv.push '\\')
  | '\\' :: '/' :: rest2, index, rv =>
      unescapeLoop token_span length rest2 (index + 2) (rv.push '/')
  | '\\' :: 'b' :: rest2, index, rv =>
      unescapeLoop token_span length rest2 (index + 2) (rv.push (Char.ofNat 0x0C))
  | '\\' :: 'f' :: rest2, index, rv =>
      unescapeLoop token_span length rest2 (index + 2) (rv.push (Char.ofNat 0x08))
  | '\\' :: 'n' :: rest2, index, rv =>
      unescapeLoop token_span length rest2 (index + 2) (rv.push '\n')
  | '\\' :: 'r' :: rest2, index, rv =>
      unescapeLoop token_span length rest2 (index + 2) (rv.push '\r')
  | '\\' :: 't' :: rest2, index, rv =>
      unescapeLoop token_span length rest2 (index + 2) (rv.push '\t')
  | '\\' :: 'u' :: d1 :: d2 :: d3 :: d4 :: '\\' :: 'u' :: e1 :: e2 :: e3 :: e4 :: rest12,
      index, rv =>
      match parseHexU32 [d1, d2, d3, d4] with
      | none =>
          Except.error (JSONPathError.syntaxErr "invalid \\uXXXX escape"
            (token_span.1 + index, index + 2 + 4))
      | some codepoint =>
          match parseHexU32 [e1, e2, e3, e4] with
          | none =>
              Except.error (JSONPathError.syntaxErr "invalid \\uXXXX escape"
                (token_span.1 + index, index + 2 + 10))
          | some low_surrogate =>
              let merged := 0x10000 +
                (((codepoint &&& 0x03FF) <<< 10) ||| (low_surrogate &&& 0x03FF))
              if charValid merged then
                if merged ≤ 0x1F then
                  Except.error (JSONPathError.syntaxErr "invalid character"
                    (token_span.1 + index, token_span.1 + index + 1))
                else
                  unescapeLoop token_span length rest12 (index + 12)
                    (rv.push (Char.ofNat merged))
              else
                Except.error (JSONPathError.syntaxErr "invalid \\uXXXX escape"
                  (token_span.1 + index, index + 2 + 6 + 3))
  | '\\' :: 'u' :: d1 :: d2 :: d3 :: d4 :: '\\' :: 'u' :: _, index, rv =>
      match parseHexU32 [d1, d2, d3, d4] with
      | none =>
          Except.error (JSONPathError.syntaxErr "invalid \\uXXXX escape"
            (token_span.1 + index, index + 2 + 4))
      | some _ =>
          Except.error (JSONPathError.syntaxErr "invalid \\uXXXX escape"
            (token_span.1 + index, length))
  | '\\' :: 'u' :: d1 :: d2 :: d3 :: d4 :: rest6, index, rv =>
      match parseHexU32 [d1, d2, d3, d4] with
      | none =>
          Except.error (JSONPathError.syntaxErr "invalid \\uXXXX escape"
            (token_span.1 + index, index + 2 + 4))
      | some codepoint =>
          if charValid codepoint then
            if codepoint ≤ 0x1F then
              Except.error (JSONPathError.syntaxErr "invalid character"
                (token_span.1 + index, token_span.1 + index + 1))
            else
              unescapeLoop token_span length rest6 (index + 6)
                (rv.push (Char.ofNat codepoint))
          else
            Except.error (JSONPathError.syntaxErr "invalid \\uXXXX escape"
              (token_span.1 + index, index + 2 + 3))
  | '\\' :: 'u' :: _, index, rv =>
      Except.error (JSONPathError.syntaxErr "invalid \\uXXXX escape"
        (token_span.1 + index, length))
  | '\\' :: _ :: _, index, rv =>
      Except.error (JSONPathError.syntaxErr "invalid escape"
        (token_span.1 + index, index + 2))
  | c :: rest, index, rv =>
      if c.toNat ≤ 0x1F then
        Except.error (JSONPathError.syntaxErr "invalid character"
          (token_span.1 + index, index + 1))
      else unescapeLoop token_span length rest (index + 1) (rv.push c)

/-- unescape_string (src/src/parser.rs): decode the escapes of a string
token's inner text. -/
def unescape_string (value : String) (token_span : Nat × Nat) :
    Except JSONPathError String :=
  unescapeLoop token_span value.data.length value.data 0 ""

end RQ

namespace Serde

/-- is_high_surrogate (unescape.rs). -/
def is_high_surrogate (code_point : Nat) : Bool :=
  decide (0xD800 ≤ code_point ∧ code_point ≤ 0xDBFF)

/-- is_low_surrogate (unescape.rs). -/
def is_low_surrogate (code_point : Nat) : Bool :=
  decide (0xDC00 ≤ code_point ∧ code_point ≤ 0xDFFF)

/-- parse_hex_digits (unescape.rs): u32::from_str_radix on an ASCII byte
slice, radix 16. -/
def parse_hex_digits (digits : List Nat) : Except String Nat :=
  match parseHexU32 (digits.map Char.ofNat) with
  | some v => Except.ok v
  | none => Except.error "invalid escape sequence"

/-- UTF-8 encoding of a valid code point (char::encode_utf8). -/
def utf8Encode (cp : Nat) : List Nat :=
  if cp < 0x80 then [cp]
  else if cp < 0x800 then [0xC0 ||| (cp >>> 6), 0x80 ||| (cp &&& 0x3F)]
  else if cp < 0x10000 then
    [0xE0 ||| (cp >>> 12), 0x80 ||| ((cp >>> 6) &&& 0x3F), 0x80 ||| (cp &&& 0x3F)]
  else
    [0xF0 ||| (cp >>> 18), 0x80 ||| ((cp >>> 12) &&& 0x3F),
      0x80 ||| ((cp >>> 6) &&& 0x3F), 0x80 ||| (cp &&& 0x3F)]

/-- encode_code_point (unescape.rs): reject control code points below 0x1F,
otherwise UTF-8 encode (the source's char::from_u32 unwrap is provably safe
for every code point decode_hex_char returns). -/
def encode_code_point (code_point : Nat) : Except String (List Nat) :=
  if code_point < 0x1F then Except.error "invalid character"
  else Except.ok (utf8Encode code_point)

/-- decode_hex_char (unescape.rs): decode one backslash-u escape starting
at the index of the u byte. A lone low surrogate is rejected; a high
surrogate must be followed by a backslash-u low surrogate, and only then
are the two combined into a supplementary code point. Returns the code
point and the index of the last consumed digit minus one, as the source
does. -/
def decode_hex_char (bytes : List Nat) (index : Nat) : Except String (Nat × Nat) :=
  let length := bytes.length
  if index + 4 ≥ length then Except.error "incomplete escape sequence"
  else
    let index1 := index + 1
    match parse_hex_digits ((bytes.drop index1).take 4) with
    | Except.error e => Except.error e
    | Except.ok code_point =>
        if is_low_surrogate code_point then
          Except.error "unexpected low surrogate code point"
        else if is_high_surrogate code_point then
          if ¬ (index1 + 9 < length ∧ bytes.getD (index1 + 4) 0 = 0x5C ∧
              bytes.getD (index1 + 5) 0 = 0x75) then
            Except.error "incomplete escape sequence"
          else
            match parse_hex_digits ((bytes.drop (index1 + 6)).take 4) with
            | Except.error e => Except.error e
            | Except.ok low_surrogate =>
                if ¬ is_low_surrogate low_surrogate then
                  Except.error "unexpected code point"
                else
                  Except.ok (0x10000 +
                    (((code_point &&& 0x03FF) <<< 10) ||| (low_surrogate &&& 0x03FF)),
                    index1 + 9)
        else Except.ok (code_point, index1 + 3)

/-- decode_hex_char only moves the index forward, by at least four bytes. -/
theorem decode_hex_char_ge (bytes : List Nat) (index : Nat) (cp idx2 : Nat)
    (h : decode_hex_char bytes index = Except.ok (cp, idx2)) : index + 4 ≤ idx2 := by
  unfold decode_hex_char at h
  dsimp only at h
  repeat' split at h
  all_goals simp_all
  all_goals omega

/-- The byte loop of unescape (unescape.rs): copy bytes, decode JSON-style
escapes (with the correct backslash-b to U+0008 and backslash-f to U+000C
mapping), and decode backslash-u escapes via decode_hex_char. The loop is
written with a structural fuel so it computes by reduction; the index
strictly grows each iteration, so a fuel of one more than the byte count
always suffices and the fuel-exhausted case is unreachable from unescape. -/
def unescapeBytesLoop (bytes : List Nat) : Nat → Nat → List Nat →
    Except String (List Nat)
  | 0, _, _ => Except.error "fuel exhausted"
  | fuel + 1, index, rv =>
    if index < bytes.length then
      let b := bytes.getD index 0
      if b = 0x5C then
        let c := bytes.getD (index + 1) 0
        if c = 0x22 then unescapeBytesLoop bytes fuel (index + 2) (rv ++ [0x22])
        else if c = 0x5C then unescapeBytesLoop bytes fuel (index + 2) (rv ++ [0x5C])
        else if c = 0x2F then unescapeBytesLoop bytes fuel (index + 2) (rv ++ [0x2F])
        else if c = 0x62 then unescapeBytesLoop bytes fuel (index + 2) (rv ++ [0x08])
        else if c = 0x66 then unescapeBytesLoop bytes fuel (index + 2) (rv ++ [0x0C])
        else if c = 0x6E then unescapeBytesLoop bytes fuel (index + 2) (rv ++ [0x0A])
        else if c = 0x72 then unescapeBytesLoop bytes fuel (index + 2) (rv ++ [0x0D])
        else if c = 0x74 then unescapeBytesLoop bytes fuel (index + 2) (rv ++ [0x09])
        else if c = 0x75 then
          match decode_hex_char bytes (index + 1) with
          | Except.error e => Except.error e
          | Except.ok (code_point, index2) =>
              match encode_code_point code_point with
              | Except.error e => Except.error e
              | Except.ok x => unescapeBytesLoop bytes fuel (index2 + 1) (rv ++ x)
        else Except.error "unknown escape sequence"
      else unescapeBytesLoop bytes fuel (index + 1) (rv ++ [b])
    else Except.ok rv

/-- unescape (crates/jsonpath_rfc9535_serde/src/unescape.rs), over the
UTF-8 bytes of the input. -/
def unescape (bytes : List Nat) : Except String (List Nat) :=
  unescapeBytesLoop bytes (bytes.length + 1) 0 []

end Serde

namespace RQ

/-- The end-of-query sentinel character (token.rs, EOQ). -/
def EOQ : Char := Char.ofNat 0

/-- The UTF-8 byte length of a character (char::len_utf8), used to advance
the lexer's byte position. -/
def charUtf8Len (c : Char) : Nat :=
  if c.toNat < 0x80 then 1
  else if c.toNat < 0x800 then 2
  else if c.toNat < 0x10000 then 3
  else 4

/-- The lexer's states (lexer.rs, enum State). -/
inductive LexState where
  | error
  | endOfQuery
  | lexRoot
  | lexSegment
  | lexDescendantSegment
  | lexShorthandSegment
  | lexInsideBracketedSegment
  | lexInsideFilter
  | lexInsideSingleQuotedString
  | lexInsideDoubleQuotedString
  | lexInsideSingleQuotedFilterString
  | lexInsideDoubleQuotedFilterString
  deriving DecidableEq, Repr

/-- The lexer's mutable state (lexer.rs, struct Lexer): the emitted tokens,
the characters not yet consumed, the byte offsets of the current token's
start and of the position, the characters between them (the source slices
the query string with those offsets; the model accumulates them), the
filter nesting depth and the per-function-call paren stack. -/
structure Lexer where
  tokens : List Token
  rest : List Char
  start : Nat
  pos : Nat
  acc : List Char
  filter_depth : Nat
  paren_stack : List Nat
  deriving Repr

/-- Lexer::new. -/
def Lexer.new (query : String) : Lexer :=
  { tokens := [], rest := query.data, start := 0, pos := 0, acc := [],
    filter_depth := 0, paren_stack := [] }

/-- Lexer::emit: push a token spanning start..pos and reset the slice. -/
def Lexer.emit (l : Lexer) (t : TokenType) : Lexer :=
  { l with
      tokens := l.tokens ++ [{ kind := t, span := (l.start, l.pos) }],
      start := l.pos,
      acc := [] }

/-- Lexer::value: the text between start and pos. -/
def Lexer.value (l : Lexer) : String :=
  String.mk l.acc

/-- Lexer::next: consume one character, advancing pos by its UTF-8 length. -/
def Lexer.next (l : Lexer) : Option Char × Lexer :=
  match l.rest with
  | [] => (none, l)
  | c :: cs =>
      (some c, { l with rest := cs, pos := l.pos + charUtf8Len c, acc := l.acc ++ [c] })

/-- Lexer::ignore: discard the text between start and pos. -/
def Lexer.ignore (l : Lexer) : Lexer :=
  { l with start := l.pos, acc := [] }

/-- Lexer::peek. -/
def Lexer.peek (l : Lexer) : Char :=
  match l.rest with
  | [] => EOQ
  | c :: _ => c

/-- Lexer::accept: consume the next character when it is the given one. -/
def Lexer.accept (l : Lexer) (ch : Char) : Bool × Lexer :=
  if l.peek = ch then (true, (l.next).2) else (false, l)

/-- Lexer::accept_if. -/
def Lexer.accept_if (l : Lexer) (pred : Char → Bool) : Bool × Lexer :=
  if pred l.peek then (true, (l.next).2) else (false, l)

/-- The consuming walk of Lexer::accept_run over the remaining characters. -/
def acceptRunAux (pred : Char → Bool) : List Char → Nat → List Char →
    Bool → (List Char × Nat × List Char × Bool)
  | [], pos, acc, accepted => ([], pos, acc, accepted)
  | c :: cs, pos, acc, accepted =>
      if pred c then acceptRunAux pred cs (pos + charUtf8Len c) (acc ++ [c]) true
      else (c :: cs, pos, acc, accepted)

/-- Lexer::accept_run: consume characters while the predicate holds,
reporting whether any character was consumed. -/
def Lexer.accept_run (l : Lexer) (pred : Char → Bool) : Bool × Lexer :=
  let r := acceptRunAux pred l.rest l.pos l.acc false
  (r.2.2.2, { l with rest := r.1, pos := r.2.1, acc := r.2.2.1 })

/-- Lexer::ignore_whitespace. -/
def is_whitespace_char (ch : Char) : Bool :=
  ch = ' ' ∨ ch = '\n' ∨ ch = '\r' ∨ ch = '\t'

/-- is_name_first (lexer.rs). -/
def is_name_first (ch : Char) : Bool :=
  let code_point := ch.toNat
  (0x41 ≤ code_point ∧ code_point ≤ 0x5A) ∨ code_point = 0x5F ∨
    (0x61 ≤ code_point ∧ code_point ≤ 0x7A) ∨ code_point ≥ 0x80

/-- is_name_char (lexer.rs). -/
def is_name_char (ch : Char) : Bool :=
  let code_point := ch.toNat
  (0x30 ≤ code_point ∧ code_point ≤ 0x39) ∨
    (0x41 ≤ code_point ∧ code_point ≤ 0x5A) ∨ code_point = 0x5F ∨
    (0x61 ≤ code_point ∧ code_point ≤ 0x7A) ∨ code_point ≥ 0x80

/-- is_digit (lexer.rs). -/
def is_digit (ch : Char) : Bool :=
  0x30 ≤ ch.toNat ∧ ch.toNat ≤ 0x39

/-- is_function_name_first (lexer.rs). -/
def is_function_name_first (ch : Char) : Bool :=
  0x61 ≤ ch.toNat ∧ ch.toNat ≤ 0x7A

/-- is_function_name_char (lexer.rs). -/
def is_function_name_char (ch : Char) : Bool :=
  (0x30 ≤ ch.toNat ∧ ch.toNat ≤ 0x39) ∨ ch.toNat = 0x5F ∨
    (0x61 ≤ ch.toNat ∧ ch.toNat ≤ 0x7A)

/-- is_escape_char (lexer.rs): the escapes the string states accept after a
backslash at lex time. -/
def is_escape_char (ch : Char) : Bool :=
  ch = 'b' ∨ ch = 'f' ∨ ch = 'n' ∨ ch = 'r' ∨ ch = 't' ∨ ch = 'u' ∨
    ch = '/' ∨ ch = '\\'

/-- Lexer::ignore_whitespace: skip whitespace, reporting whether any was
skipped. -/
def Lexer.ignore_whitespace (l : Lexer) : Bool × Lexer :=
  let r := l.accept_run is_whitespace_char
  if r.1 then (true, r.2.ignore) else (false, r.2)

/-- Lexer::error: push an Error token and stop. -/
def Lexer.mkError (l : Lexer) (msg : String) : LexState × Lexer :=
  (LexState.error,
    { l with tokens := l.tokens ++
        [{ kind := TokenType.error msg, span := (l.start, l.pos) }] })

/-- lex_root (lexer.rs). -/
def lex_root (l : Lexer) : LexState × Lexer :=
  let r := l.accept '$'
  if r.1 then (LexState.lexSegment, r.2.emit TokenType.root)
  else
    let n := r.2.next
    let found := (n.1).getD EOQ
    n.2.mkError ("expected \'$\', found \'" ++ String.singleton found ++ "\'")

/-- lex_segment (lexer.rs). -/
def lex_segment (l : Lexer) : LexState × Lexer :=
  let w := l.ignore_whitespace
  if w.1 ∧ w.2.peek = EOQ then w.2.mkError "unexpected trailing whitespace"
  else
    let l := w.2
    let d := l.accept '.'
    if d.1 then
      let dd := d.2.accept '.'
      if dd.1 then (LexState.lexDescendantSegment, dd.2.emit TokenType.doubleDot)
      else (LexState.lexShorthandSegment, dd.2)
    else
      let b := d.2.accept '['
      if b.1 then (LexState.lexInsideBracketedSegment, b.2.emit TokenType.lBracket)
      else if b.2.filter_depth > 0 then (LexState.lexInsideFilter, b.2)
      else if b.2.peek = EOQ then
        let n := b.2.next
        (LexState.endOfQuery, n.2.emit TokenType.eoq)
      else
        let n := b.2.next
        let found := (n.1).getD EOQ
        n.2.mkError ("expected \'.\', \'..\' or a bracketed selection, found \'" ++
          String.singleton found ++ "\'")

/-- lex_descendant_segment (lexer.rs). -/
def lex_descendant_segment (l : Lexer) : LexState × Lexer :=
  let s := l.accept '*'
  if s.1 then (LexState.lexSegment, s.2.emit TokenType.wild)
  else
    let b := s.2.accept '['
    if b.1 then (LexState.lexInsideBracketedSegment, b.2.emit TokenType.lBracket)
    else
      let f := b.2.accept_if is_name_first
      if f.1 then
        let r := f.2.accept_run is_name_char
        (LexState.lexSegment, r.2.emit (TokenType.name r.2.value))
      else
        f.2.mkError ("unexpected descendant selection token \'" ++
          String.singleton f.2.peek ++ "\'")

/-- lex_shorthand_selector (lexer.rs). -/
def lex_shorthand_selector (l : Lexer) : LexState × Lexer :=
  let l := l.ignore
  let w := l.accept_run is_whitespace_char
  if w.1 then w.2.mkError "unexpected whitespace after dot"
  else
    let s := w.2.accept '*'
    if s.1 then (LexState.lexSegment, s.2.emit TokenType.wild)
    else
      let f := s.2.accept_if is_name_first
      if f.1 then
        let r := f.2.accept_run is_name_char
        (LexState.lexSegment, r.2.emit (TokenType.name r.2.value))
      else
        let n := f.2.next
        let found := (n.1).getD EOQ
        n.2.mkError ("unexpected shorthand selector \'" ++
          String.singleton found ++ "\'")

/-- lex_inside_bracketed_segment (lexer.rs). -/
def lex_inside_bracketed_segment (l : Lexer) : LexState × Lexer :=
  let l := (l.ignore_whitespace).2
  let c := l.peek
  if c = ']' then
    let n := (l.next).2
    let n := n.emit TokenType.rBracket
    if n.filter_depth > 0 then (LexState.lexInsideFilter, n)
    else (LexState.lexSegment, n)
  else if c = '*' then
    (LexState.lexInsideBracketedSegment, ((l.next).2).emit TokenType.wild)
  else if c = '?' then
    let n := ((l.next).2).emit TokenType.filter
    (LexState.lexInsideFilter, { n with filter_depth := n.filter_depth + 1 })
  else if c = ',' then
    (LexState.lexInsideBracketedSegment, ((l.next).2).emit TokenType.comma)
  else if c = ':' then
    (LexState.lexInsideBracketedSegment, ((l.next).2).emit TokenType.colon)
  else if c = '\'' then (LexState.lexInsideSingleQuotedString, (l.next).2)
  else if c = '"' then (LexState.lexInsideDoubleQuotedString, (l.next).2)
  else if c = '-' then
    let n := (l.next).2
    let r := n.accept_run is_digit
    if r.1 then
      (LexState.lexInsideBracketedSegment, r.2.emit (TokenType.index r.2.value))
    else
      r.2.mkError ("expected a digit after \'-\', found \'" ++
        String.singleton r.2.peek ++ "\'")
  else if c = EOQ then l.mkError "unclosed bracketed selection"
  else
    let r := l.accept_run is_digit
    if r.1 then
      (LexState.lexInsideBracketedSegment, r.2.emit (TokenType.index r.2.value))
    else
      r.2.mkError ("unexpected \'" ++ String.singleton r.2.peek ++
        "\' in bracketed selection")

/-- lex_number (lexer.rs): integer and float literals inside a filter; the
leading minus sign, when present, was consumed by the caller. -/
def lex_number (l : Lexer) : LexState × Lexer :=
  let r := l.accept_run is_digit
  if ¬ r.1 then
    r.2.mkError ("expected a digit, found \'" ++ String.singleton r.2.peek ++ "\'")
  else
    let dot := r.2.accept '.'
    if dot.1 then
      let fr := dot.2.accept_run is_digit
      if ¬ fr.1 then
        fr.2.mkError "a fractional digit is required after a decimal point"
      else
        let e := fr.2.accept 'e'
        if e.1 then
          let sgn := (e.2.accept_if (fun ch => ch = '+' ∨ ch = '-')).2
          let ed := sgn.accept_run is_digit
          if ¬ ed.1 then ed.2.mkError "at least one exponent digit is required"
          else (LexState.lexInsideFilter, ed.2.emit (TokenType.float ed.2.value))
        else (LexState.lexInsideFilter, e.2.emit (TokenType.float e.2.value))
    else
      let e := dot.2.accept 'e'
      if e.1 then
        let neg := e.2.accept '-'
        if neg.1 then
          let ed := neg.2.accept_run is_digit
          if ¬ ed.1 then ed.2.mkError "at least one exponent digit is required"
          else (LexState.lexInsideFilter, ed.2.emit (TokenType.float ed.2.value))
        else
          let pos := (neg.2.accept '+').2
          let ed := pos.accept_run is_digit
          if ¬ ed.1 then ed.2.mkError "at least one exponent digit is required"
          else (LexState.lexInsideFilter, ed.2.emit (TokenType.int ed.2.value))
      else (LexState.lexInsideFilter, e.2.emit (TokenType.int e.2.value))

/-- lex_inside_filter (lexer.rs). -/
def lex_inside_filter (l : Lexer) : LexState × Lexer :=
  let l := (l.ignore_whitespace).2
  let c := l.peek
  if c = EOQ then l.mkError "unclosed bracketed selection"
  else if c = ']' then
    let l2 := { l with filter_depth := l.filter_depth - 1 }
    if l2.paren_stack.length = 1 then l2.mkError "unbalanced parentheses"
    else (LexState.lexInsideBracketedSegment, l2)
  else if c = ',' then
    let n := ((l.next).2).emit TokenType.comma
    if ¬ n.paren_stack.isEmpty then (LexState.lexInsideFilter, n)
    else
      (LexState.lexInsideBracketedSegment,
        { n with filter_depth := n.filter_depth - 1 })
  else if c = '\'' then (LexState.lexInsideSingleQuotedFilterString, (l.next).2)
  else if c = '"' then (LexState.lexInsideDoubleQuotedFilterString, (l.next).2)
  else if c = '(' then
    let n := ((l.next).2).emit TokenType.lParen
    let n :=
      match n.paren_stack.getLast? with
      | some i => { n with paren_stack := n.paren_stack.dropLast ++ [i + 1] }
      | none => n
    (LexState.lexInsideFilter, n)
  else if c = ')' then
    let n := ((l.next).2).emit TokenType.rParen
    let n :=
      match n.paren_stack.getLast? with
      | some i =>
          if i = 1 then { n with paren_stack := n.paren_stack.dropLast }
          else { n with paren_stack := n.paren_stack.dropLast ++ [i - 1] }
      | none => n
    (LexState.lexInsideFilter, n)
  else if c = '$' then (LexState.lexSegment, ((l.next).2).emit TokenType.root)
  else if c = '@' then (LexState.lexSegment, ((l.next).2).emit TokenType.current)
  else if c = '.' then (LexState.lexSegment, l)
  else if c = '!' then
    let n := (l.next).2
    let e := n.accept '='
    if e.1 then (LexState.lexInsideFilter, e.2.emit TokenType.ne)
    else (LexState.lexInsideFilter, e.2.emit TokenType.not)
  else if c = '=' then
    let n := (l.next).2
    let e := n.accept '='
    if e.1 then (LexState.lexInsideFilter, e.2.emit TokenType.eq)
    else e.2.mkError "expected \'==\', found \'=\'"
  else if c = '<' then
    let n := (l.next).2
    let e := n.accept '='
    if e.1 then (LexState.lexInsideFilter, e.2.emit TokenType.le)
    else (LexState.lexInsideFilter, e.2.emit TokenType.lt)
  else if c = '>' then
    let n := (l.next).2
    let e := n.accept '='
    if e.1 then (LexState.lexInsideFilter, e.2.emit TokenType.ge)
    else (LexState.lexInsideFilter, e.2.emit TokenType.gt)
  else if c = '&' then
    let n := (l.next).2
    let e := n.accept '&'
    if e.1 then (LexState.lexInsideFilter, e.2.emit TokenType.and)
    else e.2.mkError "unexpected \'&\', did you mean \'&&\'?"
  else if c = '|' then
    let n := (l.next).2
    let e := n.accept '|'
    if e.1 then (LexState.lexInsideFilter, e.2.emit TokenType.or)
    else e.2.mkError "unexpected \'|\', did you mean \'||\'?"
  else if c = '-' then lex_number (l.next).2
  else if is_digit c then
    let r := lex_number l
    (LexState.lexInsideFilter, r.2)
  else
    let f := l.accept_run is_function_name_first
    if f.1 then
      let r := (f.2.accept_run is_function_name_char).2
      if r.value = "true" then (LexState.lexInsideFilter, r.emit TokenType.tru)
      else if r.value = "false" then (LexState.lexInsideFilter, r.emit TokenType.fls)
      else if r.value = "null" then (LexState.lexInsideFilter, r.emit TokenType.null)
      else if r.peek = '(' then
        let r2 := { r with paren_stack := r.paren_stack ++ [1] }
        let r2 := r2.emit (TokenType.function r2.value)
        (LexState.lexInsideFilter, ((r2.next).2).ignore)
      else r.mkError "expected a keyword or function call"
    else
      f.2.mkError ("unexpected filter expression token \'" ++
        String.singleton f.2.peek ++ "\'")

/-- The character loop of lex_string (lexer.rs), with a structural fuel of
at least the remaining character count. The source's todo for a quote at
the very end of the query is modelled as an error token. -/
def lexStringLoop (quote : Char) (next_state : LexState) : Nat → Lexer →
    LexState × Lexer
  | 0, l => l.mkError "fuel exhausted"
  | fuel + 1, l =>
    let c := l.peek
    if c = '\\' then
      let n := (l.next).2
      let e := n.accept_if (fun ch => is_escape_char ch ∨ ch = quote)
      if e.1 then lexStringLoop quote next_state fuel e.2
      else e.2.mkError "invalid escape sequence"
    else if c = EOQ then
      l.mkError ("unclosed string starting at index " ++ toString l.start)
    else if c = quote then
      let t := if quote = '\'' then TokenType.singleQuoteString l.value
        else TokenType.doubleQuoteString l.value
      let n := l.emit t
      (next_state, ((n.next).2).ignore)
    else lexStringLoop quote next_state fuel (l.next).2

/-- lex_string (lexer.rs): after the opening quote, accumulate raw string
text (validating escapes), emit the string token without its quotes, and
return to the given state. -/
def lex_string (l : Lexer) (quote : Char) (next_state : LexState) :
    LexState × Lexer :=
  let l := l.ignore
  if l.peek = EOQ then l.mkError "unexpected end of query after open quote"
  else lexStringLoop quote next_state (l.rest.length + 1) l

/-- The run loop of Lexer::run (lexer.rs), with a structural fuel: every
state either consumes input or moves to a consuming state, so the fuel
tokenize supplies is always enough for the loop to reach the Error or
EndOfQuery state. -/
def runLoop : Nat → LexState → Lexer → Lexer
  | 0, _, l => l
  | fuel + 1, state, l =>
    match state with
    | LexState.error => l
    | LexState.endOfQuery => l
    | LexState.lexRoot =>
        let r := lex_root l
        runLoop fuel r.1 r.2
    | LexState.lexSegment =>
        let r := lex_segment l
        runLoop fuel r.1 r.2
    | LexState.lexDescendantSegment =>
        let r := lex_descendant_segment l
        runLoop fuel r.1 r.2
    | LexState.lexShorthandSegment =>
        let r := lex_shorthand_selector l
        runLoop fuel r.1 r.2
    | LexState.lexInsideBracketedSegment =>
        let r := lex_inside_bracketed_segment l
        runLoop fuel r.1 r.2
    | LexState.lexInsideFilter =>
        let r := lex_inside_filter l
        runLoop fuel r.1 r.2
    | LexState.lexInsideSingleQuotedString =>
        let r := lex_string l '\'' LexState.lexInsideBracketedSegment
        runLoop fuel r.1 r.2
    | LexState.lexInsideDoubleQuotedString =>
        let r := lex_string l '"' LexState.lexInsideBracketedSegment
        runLoop fuel r.1 r.2
    | LexState.lexInsideSingleQuotedFilterString =>
        let r := lex_string l '\'' LexState.lexInsideFilter
        runLoop fuel r.1 r.2
    | LexState.lexInsideDoubleQuotedFilterString =>
        let r := lex_string l '"' LexState.lexInsideFilter
        runLoop fuel r.1 r.2

/-- tokenize (lexer.rs): run the state machine and return the tokens. -/
def tokenize (query : String) : List Token :=
  (runLoop (4 * query.data.length + 16) LexState.lexRoot (Lexer.new query)).tokens

/-- lex (lexer.rs): tokenize and convert a trailing Error token into a
syntax-kind JSONPathError carrying its message and span. -/
def lex (query : String) : Except JSONPathError (List Token) :=
  let tokens := tokenize query
  match tokens.getLast? with
  | some { kind := TokenType.error msg, span := span } =>
      Except.error (JSONPathError.syntaxErr msg span)
  | _ => Except.ok tokens

/-- The Display rendering of a token kind (token.rs), used in parser error
messages; source quirks (the semicolon shown for Colon, the missing opening
quote on Le, the word or for Or) are preserved. -/
def displayKind : TokenType → String
  | TokenType.eoq => "\'end of query\'"
  | TokenType.error msg => "error: " ++ msg
  | TokenType.colon => "\';\'"
  | TokenType.comma => "\',\'"
  | TokenType.doubleDot => "\'..\'"
  | TokenType.filter => "\'?\'"
  | TokenType.index value => "\'" ++ value ++ "\'"
  | TokenType.lBracket => "\'[\'"
  | TokenType.name value => "\'" ++ value ++ "\'"
  | TokenType.rBracket => "\']\'"
  | TokenType.root => "\'$\'"
  | TokenType.wild => "\'*\'"
  | TokenType.and => "\'&&\'"
  | TokenType.current => "\'@\'"
  | TokenType.doubleQuoteString value => "\'" ++ value ++ "\'"
  | TokenType.eq => "\'==\'"
  | TokenType.fls => "\'false\'"
  | TokenType.float value => value
  | TokenType.function name => "\'" ++ name ++ "\'"
  | TokenType.ge => "\'>=\'"
  | TokenType.gt => "\'>\'"
  | TokenType.int value => value
  | TokenType.le => "<=\'"
  | TokenType.lParen => "\'(\'"
  | TokenType.lt => "\'<\'"
  | TokenType.ne => "\'!=\'"
  | TokenType.not => "\'!\'"
  | TokenType.null => "\'null\'"
  | TokenType.or => "\'or\'"
  | TokenType.rParen => "\')\'"
  | TokenType.singleQuoteString value => "\'" ++ value ++ "\'"
  | TokenType.tru => "\'true\'"

/-- The parser's expression type classes (parser.rs, enum ExpressionType). -/
inductive ExpressionType where
  | logical
  | nodes
  | value
  deriving DecidableEq, Repr

/-- A registered function signature (parser.rs, struct FunctionSignature). -/
structure FunctionSignature where
  param_types : List ExpressionType
  return_type : ExpressionType

/-- standard_functions (parser.rs): the five built-in signatures. -/
def standard_functions : List (String × FunctionSignature) :=
  [("count", ⟨[ExpressionType.nodes], ExpressionType.value⟩),
   ("length", ⟨[ExpressionType.value], ExpressionType.value⟩),
   ("match", ⟨[ExpressionType.value, ExpressionType.value], ExpressionType.logical⟩),
   ("search", ⟨[ExpressionType.value, ExpressionType.value], ExpressionType.logical⟩),
   ("value", ⟨[ExpressionType.nodes], ExpressionType.value⟩)]

/-- A parser instance: the I-JSON index range and the function signature
map (parser.rs, struct Parser; the HashMap is an association list looked up
by name). -/
structure Parser where
  index_range : Int × Int
  functions : List (String × FunctionSignature)

/-- Parser::new. -/
def Parser.new : Parser :=
  { index_range := (-(2 ^ 53 : Int) + 1, (2 ^ 53 : Int) - 1),
    functions := standard_functions }

/-- HashMap::get on the signature map. -/
def Parser.getFunction (p : Parser) (name : String) : Option FunctionSignature :=
  (p.functions.find? (fun kv => kv.1 = name)).map (fun kv => kv.2)

/-- The end-of-stream token (parser.rs, EOF_TOKEN). -/
def EOF_TOKEN : Token := { kind := TokenType.eoq, span := (0, 1) }

/-- TokenStream::next. -/
def tsNext : List Token → Token × List Token
  | [] => (EOF_TOKEN, [])
  | t :: rest => (t, rest)

/-- TokenStream::peek. -/
def tsPeek : List Token → Token
  | [] => EOF_TOKEN
  | t :: _ => t

/-- The operator precedences (parser.rs). -/
def PRECEDENCE_LOWEST : Nat := 1

/-- Precedence of logical or. -/
def PRECEDENCE_LOGICAL_OR : Nat := 3

/-- Precedence of logical and. -/
def PRECEDENCE_LOGICAL_AND : Nat := 4

/-- Precedence of the comparison operators. -/
def PRECEDENCE_RELATIONAL : Nat := 5

/-- Precedence of logical not. -/
def PRECEDENCE_LOGICAL_NOT : Nat := 7

/-- Parser::precedence. -/
def Parser.precedence (_ : Parser) (kind : TokenType) : Nat :=
  match kind with
  | TokenType.and => PRECEDENCE_LOGICAL_AND
  | TokenType.eq => PRECEDENCE_RELATIONAL
  | TokenType.ge => PRECEDENCE_RELATIONAL
  | TokenType.gt => PRECEDENCE_RELATIONAL
  | TokenType.le => PRECEDENCE_RELATIONAL
  | TokenType.lt => PRECEDENCE_RELATIONAL
  | TokenType.ne => PRECEDENCE_RELATIONAL
  | TokenType.not => PRECEDENCE_LOGICAL_NOT
  | TokenType.or => PRECEDENCE_LOGICAL_OR
  | _ => PRECEDENCE_LOWEST

/-- Whether a token kind is one of the infix operator kinds the expression
loop accepts (the Eq | Ge | Gt | Le | Lt | Ne | And | Or matches!). -/
def isInfixOp : TokenType → Bool
  | TokenType.eq => true
  | TokenType.ge => true
  | TokenType.gt => true
  | TokenType.le => true
  | TokenType.lt => true
  | TokenType.ne => true
  | TokenType.and => true
  | TokenType.or => true
  | _ => false

/-- Signed decimal digits as an integer; none on an empty or malformed
string. -/
def parseDecInt (s : List Char) : Option Int :=
  match s with
  | '-' :: rest => (digitsVal rest).map (fun n => -(n : Int))
  | '+' :: rest => (digitsVal rest).map (fun n => (n : Int))
  | _ => (digitsVal s).map (fun n => (n : Int))
where
  digitsVal : List Char → Option Nat
    | [] => none
    | ds => go ds 0
  go : List Char → Nat → Option Nat
    | [], acc => some acc
    | c :: rest, acc =>
        if '0' ≤ c ∧ c ≤ '9' then go rest (acc * 10 + (c.toNat - '0'.toNat))
        else none

/-- str::parse::<i64>: a signed decimal integer within the i64 range. -/
def parseI64 (s : String) : Option Int :=
  match parseDecInt s.data with
  | some v =>
      if -(2 ^ 63 : Int) ≤ v ∧ v ≤ (2 ^ 63 : Int) - 1 then some v else none
  | none => none

/-- The shape digits [. digits] [e [+-] digits] of the lexer's number
tokens, parsed exactly; f64 is modelled as Rat, so values parse without
rounding. -/
def parseF64 (s : String) : Option Rat :=
  let (sign, body) :=
    match s.data with
    | '-' :: rest => ((-1 : Rat), rest)
    | rest => ((1 : Rat), rest)
  let intDigits := body.takeWhile (fun c => '0' ≤ c ∧ c ≤ '9')
  let afterInt := body.drop intDigits.length
  match parseDecInt intDigits with
  | none => none
  | some ip =>
      let (fracVal, fracLen, afterFrac) :=
        match afterInt with
        | '.' :: rest =>
            let fracDigits := rest.takeWhile (fun c => '0' ≤ c ∧ c ≤ '9')
            (((parseDecInt fracDigits).getD 0 : Int), fracDigits.length,
              rest.drop fracDigits.length)
        | _ => ((0 : Int), 0, afterInt)
  match afterFrac with
      | [] =>
          some (sign * ((ip : Rat) + (fracVal : Rat) / ((10 : Rat) ^ fracLen)))
      | 'e' :: erest =>
          match parseDecInt erest with
          | none => none
          | some e =>
              let base := (ip : Rat) + (fracVal : Rat) / ((10 : Rat) ^ fracLen)
              if e ≥ 0 then some (sign * base * ((10 : Rat) ^ e.toNat))
              else some (sign * base / ((10 : Rat) ^ (-e).toNat))
      | _ => none

/-- f64 cast to i64 (as): truncate toward zero and saturate at the i64
bounds. -/
def f64AsI64 (x : Rat) : Int :=
  let t := if x ≥ 0 then x.floor else x.ceil
  if t < -(2 ^ 63 : Int) then -(2 ^ 63 : Int)
  else if t > (2 ^ 63 : Int) - 1 then (2 ^ 63 : Int) - 1
  else t

/-- Parser::parse_i_json_int: reject redundant leading zeros, parse as i64
and range-check against the I-JSON bounds. -/
def Parser.parse_i_json_int (p : Parser) (value : String)
    (token_span : Nat × Nat) : Except JSONPathError Int :=
  if value.length > 1 ∧
      (value.startsWith "0" ∨ value.startsWith "-0") then
    Except.error (JSONPathError.syntaxErr
      ("invalid index `" ++ value ++ "`") token_span)
  else
    match parseI64 value with
    | none =>
        Except.error (JSONPathError.syntaxErr
          ("invalid index `" ++ value ++ "`") token_span)
    | some i =>
        if p.index_range.1 ≤ i ∧ i ≤ p.index_range.2 then Except.ok i
        else
          Except.error (JSONPathError.syntaxErr
            ("index out of range `" ++ value ++ "`") token_span)

/-- Parser::is_value_type: literals, singular queries, and calls of
functions returning Value. -/
def Parser.is_value_type (p : Parser) (expr : FilterExpression) : Bool :=
  if expr.is_literal then true
  else
    match expr.kind with
    | FilterExpressionType.relativeQuery query => query.is_singular
    | FilterExpressionType.rootQuery query => query.is_singular
    | FilterExpressionType.function name _ =>
        match p.getFunction name with
        | some { return_type := ExpressionType.value, .. } => true
        | _ => false
    | _ => false

/-- Parser::is_nodes_type: queries and calls of functions returning Nodes. -/
def Parser.is_nodes_type (p : Parser) (expr : FilterExpression) : Bool :=
  match expr.kind with
  | FilterExpressionType.relativeQuery _ => true
  | FilterExpressionType.rootQuery _ => true
  | FilterExpressionType.function name _ =>
      match p.getFunction name with
      | some { return_type := ExpressionType.nodes, .. } => true
      | _ => false
  | _ => false

/-- Whether an expression matches the Logical argument pattern in
assert_well_typed: queries, logical expressions and comparisons. -/
def isLogicalArg (expr : FilterExpression) : Bool :=
  match expr.kind with
  | FilterExpressionType.relativeQuery _ => true
  | FilterExpressionType.rootQuery _ => true
  | FilterExpressionType.logical _ _ _ => true
  | FilterExpressionType.comparison _ _ _ => true
  | _ => false

/-- Parser::assert_comparable: a comparison operand that is a query must be
singular; one that is a function call must return Value; everything else
passes. -/
def Parser.assert_comparable (p : Parser) (expr : FilterExpression)
    (span : Nat × Nat) : Except JSONPathError Unit :=
  match expr.kind with
  | FilterExpressionType.relativeQuery query =>
      if ¬ query.is_singular then
        Except.error (JSONPathError.typ "non-singular query is not comparable" span)
      else Except.ok ()
  | FilterExpressionType.rootQuery query =>
      if ¬ query.is_singular then
        Except.error (JSONPathError.typ "non-singular query is not comparable" span)
      else Except.ok ()
  | FilterExpressionType.function name _ =>
      match p.getFunction name with
      | some { return_type := ExpressionType.value, .. } => Except.ok ()
      | _ =>
          Except.error (JSONPathError.typ
            ("result of " ++ name ++ "() is not comparable") span)
  | _ => Except.ok ()

/-- The per-argument type check of Parser::assert_well_typed. -/
def Parser.checkArgTypes (p : Parser) (func_name : String)
    (sig_types : List ExpressionType) (args : List FilterExpression)
    (token : Token) (idx : Nat) : Except JSONPathError Unit :=
  match sig_types, args with
  | [], _ => Except.ok ()
  | _, [] => Except.ok ()
  | typ :: trest, arg :: arest =>
      match typ with
      | ExpressionType.value =>
          if ¬ p.is_value_type arg then
            Except.error (JSONPathError.typ
              ("argument " ++ toString (idx + 1) ++ " of " ++ func_name ++
                "() must be of a \'Value\' type") token.span)
          else p.checkArgTypes func_name trest arest token (idx + 1)
      | ExpressionType.logical =>
          if ¬ isLogicalArg arg then
            Except.error (JSONPathError.typ
              ("argument " ++ toString (idx + 1) ++ " of " ++ func_name ++
                "() must be of a \'Logical\' type") token.span)
          else p.checkArgTypes func_name trest arest token (idx + 1)
      | ExpressionType.nodes =>
          if ¬ p.is_nodes_type arg then
            Except.error (JSONPathError.typ
              ("argument " ++ toString (idx + 1) ++ " of " ++ func_name ++
                "() must be of a \'Nodes\' type") token.span)
          else p.checkArgTypes func_name trest arest token (idx + 1)

/-- Parser::assert_well_typed: the function must be registered, the arity
must match, and every argument must inhabit its parameter's type class. -/
def Parser.assert_well_typed (p : Parser) (func_name : String)
    (args : List FilterExpression) (token : Token) : Except JSONPathError Unit :=
  match p.getFunction func_name with
  | none =>
      Except.error (JSONPathError.nameErr
        ("unknown function `" ++ func_name ++ "`") token.span)
  | some signature =>
      if args.length ≠ signature.param_types.length then
        Except.error (JSONPathError.typ
          (func_name ++ "() takes " ++ toString signature.param_types.length ++
            " argument" ++
            (if signature.param_types.length > 1 then "s" else "") ++
            " but " ++ toString args.length ++ " were given") token.span)
      else p.checkArgTypes func_name signature.param_types args token 0

/-- The parser recursion is not structural in the token stream, so every
function below carries a structural fuel, decremented at each call between
parser functions; the entry point supplies more fuel than any input can
consume, and the exhaustion error is unreachable from it. -/
def fuelError : Except JSONPathError α :=
  Except.error (JSONPathError.syntaxErr "parser fuel exhausted" (0, 0))

mutual

/-- The segment loop of Parser::parse_segments: a DoubleDot token starts a
recursive segment, a bracket, name or wildcard a child segment (spanned at
the peeked token), anything else ends the loop. -/
def Parser.parse_segments (p : Parser) : Nat → List Token →
    Except JSONPathError (List Segment × List Token)
  | 0, _ => fuelError
  | fuel + 1, it =>
    match (tsPeek it).kind with
    | TokenType.doubleDot =>
        let (token, it) := tsNext it
        match p.parse_selectors fuel it with
        | Except.error e => Except.error e
        | Except.ok (selectors, it) =>
            match p.parse_segments fuel it with
            | Except.error e => Except.error e
            | Except.ok (rest, it) =>
                Except.ok (Segment.recursive token.span selectors :: rest, it)
    | TokenType.lBracket =>
        let token := tsPeek it
        match p.parse_selectors fuel it with
        | Except.error e => Except.error e
        | Except.ok (selectors, it) =>
            match p.parse_segments fuel it with
            | Except.error e => Except.error e
            | Except.ok (rest, it) =>
                Except.ok (Segment.child token.span selectors :: rest, it)
    | TokenType.name _ =>
        let token := tsPeek it
        match p.parse_selectors fuel it with
        | Except.error e => Except.error e
        | Except.ok (selectors, it) =>
            match p.parse_segments fuel it with
            | Except.error e => Except.error e
            | Except.ok (rest, it) =>
                Except.ok (Segment.child token.span selectors :: rest, it)
    | TokenType.wild =>
        let token := tsPeek it
        match p.parse_selectors fuel it with
        | Except.error e => Except.error e
        | Except.ok (selectors, it) =>
            match p.parse_segments fuel it with
            | Except.error e => Except.error e
            | Except.ok (rest, it) =>
                Except.ok (Segment.child token.span selectors :: rest, it)
    | _ => Except.ok ([], it)

/-- Parser::parse_selectors: a shorthand name (escape-decoded), a wildcard,
a bracketed selection, or nothing. -/
def Parser.parse_selectors (p : Parser) : Nat → List Token →
    Except JSONPathError (List Selector × List Token)
  | 0, _ => fuelError
  | fuel + 1, it =>
    match tsPeek it with
    | { kind := TokenType.name value, span := span } =>
        match unescape_string value span with
        | Except.error e => Except.error e
        | Except.ok name =>
            let (token, it) := tsNext it
            Except.ok ([Selector.name token.span name], it)
    | { kind := TokenType.wild, .. } =>
        let (token, it) := tsNext it
        Except.ok ([Selector.wild token.span], it)
    | { kind := TokenType.lBracket, .. } => p.parse_bracketed fuel it
    | _ => Except.ok ([], it)

/-- Parser::parse_bracketed: consume the opening bracket and loop over the
comma-separated selectors; an empty selection is rejected after the loop. -/
def Parser.parse_bracketed (p : Parser) : Nat → List Token →
    Except JSONPathError (List Selector × List Token)
  | 0, _ => fuelError
  | fuel + 1, it =>
    let (token, it) := tsNext it
    match p.parse_bracketed_loop token fuel it [] with
    | Except.error e => Except.error e
    | Except.ok (selectors, it) =>
        if selectors.isEmpty then
          Except.error (JSONPathError.mk JSONPathErrorType.syntaxError
            "empty bracketed selection" token.span)
        else Except.ok (selectors, it)

/-- The selector loop of Parser::parse_bracketed; the token argument is the
opening bracket, whose span the end-of-query error uses. -/
def Parser.parse_bracketed_loop (p : Parser) (token : Token) : Nat → List Token →
    List Selector → Except JSONPathError (List Selector × List Token)
  | 0, _, _ => fuelError
  | fuel + 1, it, selectors =>
    match tsPeek it with
    | { kind := TokenType.rBracket, .. } =>
        let (_, it) := tsNext it
        Except.ok (selectors, it)
    | { kind := TokenType.index _, .. } =>
        match p.parse_slice_or_index fuel it with
        | Except.error e => Except.error e
        | Except.ok (selector, it) =>
            p.parse_bracketed_step token fuel it (selectors ++ [selector])
    | { kind := TokenType.colon, .. } =>
        match p.parse_slice_or_index fuel it with
        | Except.error e => Except.error e
        | Except.ok (selector, it) =>
            p.parse_bracketed_step token fuel it (selectors ++ [selector])
    | { kind := TokenType.doubleQuoteString value, span := span } =>
        match unescape_string value span with
        | Except.error e => Except.error e
        | Except.ok name =>
            let (tok, it) := tsNext it
            p.parse_bracketed_step token fuel it
              (selectors ++ [Selector.name tok.span name])
    | { kind := TokenType.singleQuoteString value, span := span } =>
        match unescape_string (value.replace "\\\'" "\'") span with
        | Except.error e => Except.error e
        | Except.ok name =>
            let (tok, it) := tsNext it
            p.parse_bracketed_step token fuel it
              (selectors ++ [Selector.name tok.span name])
    | { kind := TokenType.wild, .. } =>
        let (tok, it) := tsNext it
        p.parse_bracketed_step token fuel it (selectors ++ [Selector.wild tok.span])
    | { kind := TokenType.filter, .. } =>
        match p.parse_filter fuel it with
        | Except.error e => Except.error e
        | Except.ok (selector, it) =>
            p.parse_bracketed_step token fuel it (selectors ++ [selector])
    | { kind := TokenType.eoq, .. } =>
        Except.error (JSONPathError.syntaxErr "unexpected end of query" token.span)
    | other =>
        Except.error (JSONPathError.syntaxErr
          ("unexpected selector token " ++ displayKind other.kind) other.span)

/-- The comma-or-closing-bracket step at the bottom of the bracketed loop. -/
def Parser.parse_bracketed_step (p : Parser) (token : Token) : Nat → List Token →
    List Selector → Except JSONPathError (List Selector × List Token)
  | 0, _, _ => fuelError
  | fuel + 1, it, selectors =>
    match tsPeek it with
    | { kind := TokenType.rBracket, .. } => p.parse_bracketed_loop token fuel it selectors
    | { kind := TokenType.comma, .. } =>
        let (_, it) := tsNext it
        p.parse_bracketed_loop token fuel it selectors
    | other =>
        Except.error (JSONPathError.mk JSONPathErrorType.syntaxError
          ("expected a comma or closing bracket, found " ++ displayKind other.kind)
          other.span)

/-- Parser::parse_slice_or_index: an index, or a slice of up to three
optional integer parts. -/
def Parser.parse_slice_or_index (p : Parser) : Nat → List Token →
    Except JSONPathError (Selector × List Token)
  | 0, _ => fuelError
  | _ + 1, it =>
    let (token, it) := tsNext it
    if token.kind = TokenType.colon ∨ (tsPeek it).kind = TokenType.colon then
      match
        (match token with
         | { kind := TokenType.index value, span := span } =>
             (match p.parse_i_json_int value span with
              | Except.error e => Except.error e
              | Except.ok i => Except.ok (some i, (tsNext it).2))
         | _ => Except.ok (none, it) :
          Except JSONPathError (Option Int × List Token))
      with
      | Except.error e => Except.error e
      | Except.ok (start, it) =>
          match
            (if (match (tsPeek it).kind with
                 | TokenType.index _ => true
                 | TokenType.colon => true
                 | _ => false) then
              match tsNext it with
              | ({ kind := TokenType.index value, span := span }, it) =>
                  (match p.parse_i_json_int value span with
                   | Except.error e => Except.error e
                   | Except.ok i =>
                       if (tsPeek it).kind = TokenType.colon then
                         Except.ok (some i, (tsNext it).2)
                       else Except.ok (some i, it))
              | (_, it) => Except.ok (none, it)
            else Except.ok (none, it) :
              Except JSONPathError (Option Int × List Token))
          with
          | Except.error e => Except.error e
          | Except.ok (stop, it) =>
              match
                (match tsPeek it with
                 | { kind := TokenType.index _, .. } =>
                     (match tsNext it with
                      | ({ kind := TokenType.index value, span := span }, it) =>
                          (match p.parse_i_json_int value span with
                           | Except.error e => Except.error e
                           | Except.ok i => Except.ok (some i, it))
                      | (_, it) => Except.ok (none, it))
                 | _ => Except.ok (none, it) :
                  Except JSONPathError (Option Int × List Token))
              with
              | Except.error e => Except.error e
              | Except.ok (step, it) =>
                  Except.ok (Selector.slice token.span start stop step, it)
    else
      match token with
      | { kind := TokenType.index value, .. } =>
          match p.parse_i_json_int value token.span with
          | Except.error e => Except.error e
          | Except.ok array_index =>
              Except.ok (Selector.index token.span array_index, it)
      | tok =>
          Except.error (JSONPathError.syntaxErr
            ("expected an index, found " ++ displayKind tok.kind) tok.span)

/-- Parser::parse_filter: parse the filter expression, then reject a bare
Value-returning function call as the whole body and a bare literal. -/
def Parser.parse_filter (p : Parser) : Nat → List Token →
    Except JSONPathError (Selector × List Token)
  | 0, _ => fuelError
  | fuel + 1, it =>
    let (token, it) := tsNext it
    match p.parse_filter_expression fuel it PRECEDENCE_LOWEST with
    | Except.error e => Except.error e
    | Except.ok (expr, it) =>
        match expr.kind with
        | FilterExpressionType.function name _ =>
            (match p.getFunction name with
             | some { return_type := ExpressionType.value, .. } =>
                 Except.error (JSONPathError.typ
                   ("result of " ++ name ++ "() must be compared") expr.span)
             | _ =>
                 if expr.is_literal then
                   Except.error (JSONPathError.typ
                     "filter expression literals must be compared" expr.span)
                 else Except.ok (Selector.filter token.span expr, it))
        | _ =>
            if expr.is_literal then
              Except.error (JSONPathError.typ
                "filter expression literals must be compared" expr.span)
            else Except.ok (Selector.filter token.span expr, it)

/-- Parser::parse_not_expression. -/
def Parser.parse_not_expression (p : Parser) : Nat → List Token →
    Except JSONPathError (FilterExpression × List Token)
  | 0, _ => fuelError
  | fuel + 1, it =>
    let (token, it) := tsNext it
    match p.parse_filter_expression fuel it PRECEDENCE_LOGICAL_NOT with
    | Except.error e => Except.error e
    | Except.ok (expr, it) =>
        Except.ok (FilterExpression.mk token.span
          (FilterExpressionType.not expr), it)

/-- Parser::parse_infix_expression: consume the operator, parse the right
operand at the operator's precedence, then build a logical expression
(rejecting literal operands) or a comparison (checking assert_comparable on
both operands). -/
def Parser.parse_infix_expression (p : Parser) : Nat → List Token →
    FilterExpression → Except JSONPathError (FilterExpression × List Token)
  | 0, _, _ => fuelError
  | fuel + 1, it, left =>
    let (op_token, it) := tsNext it
    let precedence := p.precedence op_token.kind
    match p.parse_filter_expression fuel it precedence with
    | Except.error e => Except.error e
    | Except.ok (right, it) =>
        match op_token.kind with
        | TokenType.and =>
            if left.is_literal ∨ right.is_literal then
              Except.error (JSONPathError.syntaxErr
                "filter expression literals must be compared" left.span)
            else
              Except.ok (FilterExpression.mk left.span
                (FilterExpressionType.logical left LogicalOperator.and right), it)
        | TokenType.or =>
            if left.is_literal ∨ right.is_literal then
              Except.error (JSONPathError.syntaxErr
                "filter expression literals must be compared" left.span)
            else
              Except.ok (FilterExpression.mk left.span
                (FilterExpressionType.logical left LogicalOperator.or right), it)
        | TokenType.eq =>
            (match p.assert_comparable left left.span with
             | Except.error e => Except.error e
             | Except.ok _ =>
                 match p.assert_comparable right right.span with
                 | Except.error e => Except.error e
                 | Except.ok _ =>
                     Except.ok (FilterExpression.mk left.span
                       (FilterExpressionType.comparison left
                         ComparisonOperator.eq right), it))
        | TokenType.ge =>
            (match p.assert_comparable left left.span with
             | Except.error e => Except.error e
             | Except.ok _ =>
                 match p.assert_comparable right right.span with
                 | Except.error e => Except.error e
                 | Except.ok _ =>
                     Except.ok (FilterExpression.mk left.span
                       (FilterExpressionType.comparison left
                         ComparisonOperator.ge right), it))
        | TokenType.gt =>
            (match p.assert_comparable left left.span with
             | Except.error e => Except.error e
             | Except.ok _ =>
                 match p.assert_comparable right right.span with
                 | Except.error e => Except.error e
                 | Except.ok _ =>
                     Except.ok (FilterExpression.mk left.span
                       (FilterExpressionType.comparison left
                         ComparisonOperator.gt right), it))
        | TokenType.le =>
            (match p.assert_comparable left left.span with
             | Except.error e => Except.error e
             | Except.ok _ =>
                 match p.assert_comparable right right.span with
                 | Except.error e => Except.error e
                 | Except.ok _ =>
                     Except.ok (FilterExpression.mk left.span
                       (FilterExpressionType.comparison left
                         ComparisonOperator.le right), it))
        | TokenType.lt =>
            (match p.assert_comparable left left.span with
             | Except.error e => Except.error e
             | Except.ok _ =>
                 match p.assert_comparable right right.span with
                 | Except.error e => Except.error e
                 | Except.ok _ =>
                     Except.ok (FilterExpression.mk left.span
                       (FilterExpressionType.comparison left
                         ComparisonOperator.lt right), it))
        | TokenType.ne =>
            (match p.assert_comparable left left.span with
             | Except.error e => Except.error e
             | Except.ok _ =>
                 match p.assert_comparable right right.span with
                 | Except.error e => Except.error e
                 | Except.ok _ =>
                     Except.ok (FilterExpression.mk left.span
                       (FilterExpressionType.comparison left
                         ComparisonOperator.ne right), it))
        | _ =>
            Except.error (JSONPathError.syntaxErr
              ("unexpected infix operator " ++ displayKind op_token.kind)
              op_token.span)

/-- Parser::parse_grouped_expression: eat the open paren, parse an
expression, then fold further infix operators until the closing paren. -/
def Parser.parse_grouped_expression (p : Parser) : Nat → List Token →
    Except JSONPathError (FilterExpression × List Token)
  | 0, _ => fuelError
  | fuel + 1, it =>
    let (_, it) := tsNext it
    match p.parse_filter_expression fuel it PRECEDENCE_LOWEST with
    | Except.error e => Except.error e
    | Except.ok (expr, it) => p.parse_grouped_loop fuel it expr

/-- The operator loop of Parser::parse_grouped_expression. -/
def Parser.parse_grouped_loop (p : Parser) : Nat → List Token →
    FilterExpression → Except JSONPathError (FilterExpression × List Token)
  | 0, _, _ => fuelError
  | fuel + 1, it, expr =>
    match tsPeek it with
    | { kind := TokenType.rParen, .. } =>
        let (_, it) := tsNext it
        Except.ok (expr, it)
    | { kind := TokenType.eoq, span := span } =>
        Except.error (JSONPathError.syntaxErr "unbalanced parentheses" span)
    | { kind := TokenType.rBracket, span := span } =>
        Except.error (JSONPathError.syntaxErr "unbalanced parentheses" span)
    | { kind := kind, span := span } =>
        if isInfixOp kind then
          match p.parse_infix_expression fuel it expr with
          | Except.error e => Except.error e
          | Except.ok (expr2, it) => p.parse_grouped_loop fuel it expr2
        else
          Except.error (JSONPathError.syntaxErr
            ("expected an expression, found " ++ displayKind kind) span)

/-- Parser::parse_basic_expression: the atoms of the Pratt parser. -/
def Parser.parse_basic_expression (p : Parser) : Nat → List Token →
    Except JSONPathError (FilterExpression × List Token)
  | 0, _ => fuelError
  | fuel + 1, it =>
    match tsPeek it with
    | { kind := TokenType.doubleQuoteString value, span := span } =>
        (match unescape_string value span with
         | Except.error e => Except.error e
         | Except.ok value =>
             let (token, it) := tsNext it
             Except.ok (FilterExpression.mk token.span
               (FilterExpressionType.str value), it))
    | { kind := TokenType.fls, .. } =>
        let (token, it) := tsNext it
        Except.ok (FilterExpression.mk token.span FilterExpressionType.fls, it)
    | { kind := TokenType.float value, span := span } =>
        (match parseF64 value with
         | none =>
             Except.error (JSONPathError.syntaxErr "invalid float literal" span)
         | some f =>
             let (token, it) := tsNext it
             Except.ok (FilterExpression.mk token.span
               (FilterExpressionType.float f), it))
    | { kind := TokenType.function _, .. } => p.parse_function_call fuel it
    | { kind := TokenType.int value, span := span } =>
        (match parseF64 value with
         | none =>
             Except.error (JSONPathError.syntaxErr "invalid integer literal" span)
         | some f =>
             let i := f64AsI64 f
             let (token, it) := tsNext it
             Except.ok (FilterExpression.mk token.span
               (FilterExpressionType.int i), it))
    | { kind := TokenType.null, .. } =>
        let (token, it) := tsNext it
        Except.ok (FilterExpression.mk token.span FilterExpressionType.null, it)
    | { kind := TokenType.root, .. } =>
        let (token, it) := tsNext it
        (match p.parse_segments fuel it with
         | Except.error e => Except.error e
         | Except.ok (segments, it) =>
             Except.ok (FilterExpression.mk token.span
               (FilterExpressionType.rootQuery (Query.mk segments)), it))
    | { kind := TokenType.current, .. } =>
        let (token, it) := tsNext it
        (match p.parse_segments fuel it with
         | Except.error e => Except.error e
         | Except.ok (segments, it) =>
             Except.ok (FilterExpression.mk token.span
               (FilterExpressionType.relativeQuery (Query.mk segments)), it))
    | { kind := TokenType.singleQuoteString value, span := span } =>
        (match unescape_string (value.replace "\\\'" "\'") span with
         | Except.error e => Except.error e
         | Except.ok value =>
             let (token, it) := tsNext it
             Except.ok (FilterExpression.mk token.span
               (FilterExpressionType.str value), it))
    | { kind := TokenType.tru, .. } =>
        let (token, it) := tsNext it
        Except.ok (FilterExpression.mk token.span FilterExpressionType.tru, it)
    | { kind := TokenType.lParen, .. } => p.parse_grouped_expression fuel it
    | { kind := TokenType.not, .. } => p.parse_not_expression fuel it
    | { kind := kind, span := span } =>
        Except.error (JSONPathError.syntaxErr
          ("expected a filter expression, found " ++ displayKind kind) span)

/-- Parser::parse_function_call: consume the function token, loop over the
arguments until the closing paren, then type-check the call. -/
def Parser.parse_function_call (p : Parser) : Nat → List Token →
    Except JSONPathError (FilterExpression × List Token)
  | 0, _ => fuelError
  | fuel + 1, it =>
    let (token, it) := tsNext it
    match p.parse_function_args fuel it [] with
    | Except.error e => Except.error e
    | Except.ok (arguments, it) =>
        let (_, it) := tsNext it
        match token.kind with
        | TokenType.function name =>
            (match p.assert_well_typed name arguments token with
             | Except.error e => Except.error e
             | Except.ok _ =>
                 Except.ok (FilterExpression.mk token.span
                   (FilterExpressionType.function name arguments), it))
        | _ =>
            Except.error (JSONPathError.syntaxErr
              ("unexpected function argument token " ++ displayKind token.kind)
              token.span)

/-- The while loop over a call's arguments in Parser::parse_function_call;
a comma between arguments is eaten, the closing paren ends the loop and is
consumed by the caller. -/
def Parser.parse_function_args (p : Parser) : Nat → List Token →
    List FilterExpression → Except JSONPathError (List FilterExpression × List Token)
  | 0, _, _ => fuelError
  | fuel + 1, it, arguments =>
    if (tsPeek it).kind = TokenType.rParen then Except.ok (arguments, it)
    else
      match p.parse_basic_expression fuel it with
      | Except.error e => Except.error e
      | Except.ok (expr, it) =>
          match p.parse_arg_infix_loop fuel it expr with
          | Except.error e => Except.error e
          | Except.ok (expr, it) =>
              let arguments := arguments ++ [expr]
              match tsPeek it with
              | { kind := TokenType.rParen, .. } => Except.ok (arguments, it)
              | { kind := TokenType.comma, .. } =>
                  let (_, it) := tsNext it
                  p.parse_function_args fuel it arguments
              | _ => p.parse_function_args fuel it arguments

/-- The inner while loop folding infix operators over one call argument. -/
def Parser.parse_arg_infix_loop (p : Parser) : Nat → List Token →
    FilterExpression → Except JSONPathError (FilterExpression × List Token)
  | 0, _, _ => fuelError
  | fuel + 1, it, expr =>
    if isInfixOp (tsPeek it).kind then
      match p.parse_infix_expression fuel it expr with
      | Except.error e => Except.error e
      | Except.ok (expr, it) => p.parse_arg_infix_loop fuel it expr
    else Except.ok (expr, it)

/-- Parser::parse_filter_expression: parse an atom, then fold infix
operators whose precedence is at least the given one. -/
def Parser.parse_filter_expression (p : Parser) : Nat → List Token → Nat →
    Except JSONPathError (FilterExpression × List Token)
  | 0, _, _ => fuelError
  | fuel + 1, it, precedence =>
    match p.parse_basic_expression fuel it with
    | Except.error e => Except.error e
    | Except.ok (left, it) => p.parse_filter_expression_loop fuel it precedence left

/-- The operator loop of Parser::parse_filter_expression. -/
def Parser.parse_filter_expression_loop (p : Parser) : Nat → List Token → Nat →
    FilterExpression → Except JSONPathError (FilterExpression × List Token)
  | 0, _, _, _ => fuelError
  | fuel + 1, it, precedence, left =>
    let peek_kind := (tsPeek it).kind
    if peek_kind = TokenType.eoq ∨ peek_kind = TokenType.rBracket ∨
        p.precedence peek_kind < precedence ∨ ¬ isInfixOp peek_kind then
      Except.ok (left, it)
    else
      match p.parse_infix_expression fuel it left with
      | Except.error e => Except.error e
      | Except.ok (left, it) => p.parse_filter_expression_loop fuel it precedence left

end

/-- Parser::parse_tokens: require the root token, parse the segments, and
require the end-of-query token. -/
def Parser.parse_tokens (p : Parser) (tokens : List Token) :
    Except JSONPathError (List Segment) :=
  let it := tokens
  let (t, it) := tsNext it
  match t.kind with
  | TokenType.root =>
      (match p.parse_segments (8 * tokens.length + 32) it with
       | Except.error e => Except.error e
       | Except.ok (segments, it) =>
           let (token, _) := tsNext it
           match token.kind with
           | TokenType.eoq => Except.ok segments
           | _ =>
               Except.error (JSONPathError.syntaxErr
                 ("expected end of query, found " ++ displayKind token.kind)
                 token.span))
  | _ =>
      Except.error (JSONPathError.syntaxErr
        ("expected \'$\', found " ++ displayKind t.kind) t.span)

/-- Parser::parse: lex, then parse the tokens into a query. -/
def Parser.parse (p : Parser) (query : String) : Except JSONPathError Query :=
  match lex query with
  | Except.error e => Except.error e
  | Except.ok tokens =>
      match p.parse_tokens tokens with
      | Except.error e => Except.error e
      | Except.ok segments => Except.ok (Query.mk segments)

/-- Query::standard: parse with a standard parser. -/
def Query.standard (expr : String) : Except JSONPathError Query :=
  Parser.new.parse expr

end RQ

namespace Loc

/-- An array element index or object member name in a location
(crates/jsonpath_rfc9535_locations/src/node.rs, enum PathElement). -/
inductive PathElement where
  | index (i : Nat) : PathElement
  | name (s : String) : PathElement
  deriving DecidableEq, Repr

/-- Modelled from the spec: the locations crate's ConsList type (module
conslist, whose source file is absent from src) is, per the design notes, a
persistent linked list of path elements with shared spines where a child
appends one element via a structurally shared link; its iterator yields the
newest element first, which Node::path reverses. A location is therefore a
list with the newest path element at the head, and append is cons. -/
def Location := List PathElement

/-- A node of the locations crate: a value and a location. -/
structure Node where
  value : JsonValue
  location : Location

/-- Node::new_array_element: extend the location with an element index. -/
def Node.new_array_element (value : JsonValue) (location : Location) (index : Nat) :
    Node :=
  { value := value, location := PathElement.index index :: location }

/-- Node::new_object_member: extend the location with a member name. -/
def Node.new_object_member (value : JsonValue) (location : Location) (name : String) :
    Node :=
  { value := value, location := PathElement.name name :: location }

/-- Node::path: render the normalized path, a dollar sign followed by the
reversed per-element renderings, where a member name is interpolated
verbatim between single quotes. -/
def Node.path (n : Node) : String :=
  "$" ++ String.join ((n.location.map (fun e =>
    match e with
    | PathElement.index i => "[" ++ toString i ++ "]"
    | PathElement.name s => "[\'" ++ s ++ "\']")).reverse)

end Loc

/-- Whether an Except value is a success. -/
def exceptIsOk {ε α : Type} : Except ε α → Bool
  | Except.ok _ => true
  | Except.error _ => false

namespace Serde

/-- A filter value the comparison helpers consume without reaching the
unreachable branch of eq: any non-node value, or a node list of length at
most one, which nodes_or_singular collapses to a value or leaves empty. -/
def compareSafe : FilterExpressionResult → Bool
  | FilterExpressionResult.nodes ns => decide (ns.length ≤ 1)
  | _ => true

/-- A filter value that is an empty node list or no node list at all: the
shape of a compare-safe value after the nodes_or_singular coercion, which
keeps eq away from its unreachable branch. -/
def emptyOrNotNodes : FilterExpressionResult → Bool
  | FilterExpressionResult.nodes ns => ns.isEmpty
  | _ => true

/-- An environment is safe when every registered implementation returns a
compare-safe value on every argument list. Each of the five standard
functions returns a number, a boolean, a coerced value or Nothing, never a
node list. -/
def Environment.safe (env : Environment) : Prop :=
  ∀ name ext, env.function_register name = some ext →
    ∀ vals, compareSafe (ext.call vals) = true

/-- The comparability check the parser's assert_comparable (parser.rs)
performs, transcribed onto the evaluation-side AST: an embedded query must
be singular, a function call must be registered with a Value return type,
and everything else (literals and boolean-valued subexpressions) passes. -/
def comparableWT (env : Environment) (e : FilterExpression) : Bool :=
  match e with
  | FilterExpression.relativeQuery q => q.is_singular
  | FilterExpression.rootQuery q => q.is_singular
  | FilterExpression.function name _ =>
      (match env.function_register name with
       | some ext => decide (ext.sig.return_type = ExpressionType.value)
       | none => false)
  | _ => true

mutual

/-- Modelled from the spec: the well-typedness a compiled query enjoys (the
serde crate's own parser is not part of the source snapshot, so the spec's
description of the parser's static checks is transcribed over this AST,
mirroring the main crate's parser). Every function call names a registered
function and supplies exactly as many arguments as its signature declares,
and both operands of every comparison pass assert_comparable. -/
def exprWT (env : Environment) : FilterExpression → Bool
  | FilterExpression.tru => true
  | FilterExpression.fls => true
  | FilterExpression.null => true
  | FilterExpression.str _ => true
  | FilterExpression.int _ => true
  | FilterExpression.float _ => true
  | FilterExpression.not e => exprWT env e
  | FilterExpression.logical l _ r => exprWT env l && exprWT env r
  | FilterExpression.comparison l _ r =>
      exprWT env l && exprWT env r && comparableWT env l && comparableWT env r
  | FilterExpression.relativeQuery q => queryWT env q
  | FilterExpression.rootQuery q => queryWT env q
  | FilterExpression.function name args =>
      (match env.function_register name with
       | some ext => decide (args.length = ext.sig.param_types.length)
       | none => false) && argsWT env args

/-- Well-typedness of a function-call argument list. -/
def argsWT (env : Environment) : List FilterExpression → Bool
  | [] => true
  | a :: rest => exprWT env a && argsWT env rest

/-- Well-typedness of a query. -/
def queryWT (env : Environment) : Query → Bool
  | Query.mk segments => segsWT env segments

/-- Well-typedness of a segment list. -/
def segsWT (env : Environment) : List Segment → Bool
  | [] => true
  | seg :: rest => segWT env seg && segsWT env rest

/-- Well-typedness of a segment. -/
def segWT (env : Environment) : Segment → Bool
  | Segment.child selectors => selsWT env selectors
  | Segment.recursive selectors => selsWT env selectors
  | Segment.eoi => true

/-- Well-typedness of a selector list. -/
def selsWT (env : Environment) : List Selector → Bool
  | [] => true
  | sel :: rest => selWT env sel && selsWT env rest

/-- Well-typedness of a selector: only a filter carries conditions. -/
def selWT (env : Environment) : Selector → Bool
  | Selector.filter e => exprWT env e
  | _ => true

end

/-- count() (standard_functions.rs): the number of nodes of the nodelist
argument. The source file references a FilterExpressionResult::Value
variant that ast.rs no longer has, so the body is transcribed onto the
ast.rs result type; the argument-shape arm the parser makes unreachable
returns Nothing. -/
def countFn : FunctionExtension :=
  { sig := { param_types := [ExpressionType.nodes],
             return_type := ExpressionType.value },
    call := fun args =>
      match args.head? with
      | some (FilterExpressionResult.nodes ns) =>
          FilterExpressionResult.int ns.length
      | _ => FilterExpressionResult.nothing }

/-- length() (standard_functions.rs): character count of a string, element
count of an array, member count of an object, Nothing otherwise. -/
def lengthFn : FunctionExtension :=
  { sig := { param_types := [ExpressionType.value],
             return_type := ExpressionType.value },
    call := fun args =>
      match args.head? with
      | some (FilterExpressionResult.str s2) =>
          FilterExpressionResult.int s2.length
      | some (FilterExpressionResult.array (JsonValue.arr elems)) =>
          FilterExpressionResult.int elems.length
      | some (FilterExpressionResult.object (JsonValue.obj members)) =>
          FilterExpressionResult.int members.length
      | _ => FilterExpressionResult.nothing }

/-- match() (standard_functions.rs): full-regex match of two string
arguments, false when either argument is not a string. The regex engine is
outside the model, so the string predicate is a parameter. -/
def matchFn (regexMatches : String → String → Bool) : FunctionExtension :=
  { sig := { param_types := [ExpressionType.value, ExpressionType.value],
             return_type := ExpressionType.logical },
    call := fun args =>
      match args.head?, args.get? 1 with
      | some (FilterExpressionResult.str v), some (FilterExpressionResult.str u) =>
          FilterExpressionResult.bool (regexMatches v u)
      | _, _ => FilterExpressionResult.bool false }

/-- search() (standard_functions.rs): regex search within a string, false
when either argument is not a string; the regex engine is a parameter. -/
def searchFn (regexSearches : String → String → Bool) : FunctionExtension :=
  { sig := { param_types := [ExpressionType.value, ExpressionType.value],
             return_type := ExpressionType.logical },
    call := fun args =>
      match args.head?, args.get? 1 with
      | some (FilterExpressionResult.str v), some (FilterExpressionResult.str u) =>
          FilterExpressionResult.bool (regexSearches v u)
      | _, _ => FilterExpressionResult.bool false }

/-- value() (standard_functions.rs): the value of a singleton nodelist,
Nothing otherwise. -/
def valueFn : FunctionExtension :=
  { sig := { param_types := [ExpressionType.nodes],
             return_type := ExpressionType.value },
    call := fun args =>
      match args.head? with
      | some (FilterExpressionResult.nodes [n]) =>
          FilterExpressionResult.from_json_value n.value
      | _ => FilterExpressionResult.nothing }

/-- Environment::new (env.rs): the standard register holding count, length,
match, search and value, the two regex-backed predicates parameterized by
their string oracles. -/
def standardEnv (m s : String → String → Bool) : Environment :=
  { function_register := fun name =>
      if name = "count" then some countFn
      else if name = "length" then some lengthFn
      else if name = "match" then some (matchFn m)
      else if name = "search" then some (searchFn s)
      else if name = "value" then some valueFn
      else none }

/-- Induction motive for evaluation soundness: every well-typed AST
fragment of size at most n evaluates without error in a safe environment,
and a comparable expression's value is compare-safe. -/
def serdeEvalMotive (n : Nat) : Prop :=
  (∀ e : FilterExpression, sizeOf e ≤ n →
    ∀ (current : JsonValue) (c : QueryContext), c.env.safe →
      exprWT c.env e = true →
      ∃ r, FilterExpression.evaluate e current c = Except.ok r ∧
        (comparableWT c.env e = true → compareSafe r = true)) ∧
  (∀ args : List FilterExpression, sizeOf args ≤ n →
    ∀ (current : JsonValue) (c : QueryContext)
      (pts : List ExpressionType) (i : Nat), c.env.safe →
      argsWT c.env args = true → args.length + i ≤ pts.length →
      ∃ vals, argsEval args current c pts i = Except.ok vals) ∧
  (∀ sel : Selector, sizeOf sel ≤ n →
    ∀ (node : Node) (c : QueryContext), c.env.safe →
      selWT c.env sel = true →
      ∃ ns, Selector.resolve sel node c = Except.ok ns) ∧
  (∀ sels : List Selector, sizeOf sels ≤ n →
    ∀ c : QueryContext, c.env.safe → selsWT c.env sels = true →
      (∀ node, ∃ ns, selResolveOne node sels c = Except.ok ns) ∧
      (∀ nodes, ∃ ns, selResolveNodes nodes sels c = Except.ok ns)) ∧
  (∀ seg : Segment, sizeOf seg ≤ n →
    ∀ (nodes : List Node) (c : QueryContext), c.env.safe →
      segWT c.env seg = true →
      ∃ ns, Segment.resolve seg nodes c = Except.ok ns) ∧
  (∀ segs : List Segment, sizeOf segs ≤ n →
    ∀ (nodes : List Node) (c : QueryContext), c.env.safe →
      segsWT c.env segs = true →
      ∃ ns, segmentsFold segs nodes c = Except.ok ns) ∧
  (∀ q : Query, sizeOf q ≤ n →
    ∀ (v : JsonValue) (env : Environment), env.safe →
      queryWT env q = true →
      ∃ ns, Query.find q v env = Except.ok ns)

end Serde

/-! ### Claim-shape predicates used by the theorems -/

/-- A serde selector that is a Name or an Index selector. -/
def Serde.SelectorNameOrIndex (sel : Serde.Selector) : Prop :=
  (∃ n, sel = Serde.Selector.name n) ∨ (∃ i, sel = Serde.Selector.index i)

/-- A serde segment of the shape the singular-query claim describes: a
child segment whose selector list holds exactly one Name or Index selector. -/
def Serde.SegmentSingularShape (seg : Serde.Segment) : Prop :=
  ∃ sel, seg = Serde.Segment.child [sel] ∧ Serde.SelectorNameOrIndex sel

/-- A main-crate selector that is a Name or an Index selector. -/
def RQ.SelectorNameOrIndex (sel : RQ.Selector) : Prop :=
  (∃ sp n, sel = RQ.Selector.name sp n) ∨ (∃ sp i, sel = RQ.Selector.index sp i)

/-- A main-crate segment of the singular shape. -/
def RQ.SegmentSingularShape (seg : RQ.Segment) : Prop :=
  ∃ sp sel, seg = RQ.Segment.child sp [sel] ∧ RQ.SelectorNameOrIndex sel

/-! ## Theorems -/

/-- Pointwise form of the serde singular check. -/
theorem serde_segment_singular_bool (seg : Serde.Segment) :
    (match seg with
      | Serde.Segment.child selectors =>
          decide (selectors.length = 1) &&
            (match selectors.head? with
             | some (Serde.Selector.name _) => true
             | some (Serde.Selector.index _) => true
             | _ => false)
      | _ => false) = true ↔ Serde.SegmentSingularShape seg := by
  cases seg with
  | child selectors =>
      cases selectors with
      | nil => simp [Serde.SegmentSingularShape]
      | cons sel rest =>
          cases rest with
          | nil =>
              cases sel with
              | name n =>
                  simp [Serde.SegmentSingularShape, Serde.SelectorNameOrIndex]
              | index i =>
                  simp [Serde.SegmentSingularShape, Serde.SelectorNameOrIndex]
              | slice a b c =>
                  simp [Serde.SegmentSingularShape, Serde.SelectorNameOrIndex]
              | wild =>
                  simp [Serde.SegmentSingularShape, Serde.SelectorNameOrIndex]
              | filter e =>
                  simp [Serde.SegmentSingularShape, Serde.SelectorNameOrIndex]
          | cons sel2 rest2 =>
              simp [Serde.SegmentSingularShape]
  | recursive selectors => simp [Serde.SegmentSingularShape]
  | eoi => simp [Serde.SegmentSingularShape]

/-- The serde all-segments singular check agrees with the claim's shape. -/
theorem serde_is_singular_iff (q : Serde.Query) :
    q.is_singular = true ↔ ∀ seg ∈ q.segments, Serde.SegmentSingularShape seg := by
  rcases q with ⟨segs⟩
  simp only [Serde.Query.is_singular, Serde.Query.segments, List.all_eq_true]
  constructor
  · intro h seg hmem
    exact (serde_segment_singular_bool seg).mp (h seg hmem)
  · intro h seg hmem
    exact (serde_segment_singular_bool seg).mpr (h seg hmem)

/-- The main-crate early-return loop agrees with the claim's shape. -/
theorem rq_isSingularLoop_iff (segs : List RQ.Segment) :
    RQ.isSingularLoop segs = true ↔ ∀ seg ∈ segs, RQ.SegmentSingularShape seg := by
  induction segs with
  | nil => simp [RQ.isSingularLoop]
  | cons seg rest ih =>
      cases seg with
      | child sp selectors =>
          cases selectors with
          | nil => simp [RQ.isSingularLoop, RQ.SegmentSingularShape]
          | cons sel rest2 =>
              cases rest2 with
              | nil =>
                  cases sel with
                  | name s n =>
                      simp only [RQ.isSingularLoop, List.length_cons, List.length_nil,
                        List.head?, List.mem_cons, forall_eq_or_imp]
                      simp [ih, RQ.SegmentSingularShape, RQ.SelectorNameOrIndex]
                      intro _
                      exact ⟨sp.1, sp.2, RQ.Selector.name s n, ⟨rfl, rfl⟩,
                        Or.inl ⟨s.1, s.2, n, rfl⟩⟩
                  | index s i =>
                      simp only [RQ.isSingularLoop, List.length_cons, List.length_nil,
                        List.head?, List.mem_cons, forall_eq_or_imp]
                      simp [ih, RQ.SegmentSingularShape, RQ.SelectorNameOrIndex]
                      intro _
                      exact ⟨sp.1, sp.2, RQ.Selector.index s i, ⟨rfl, rfl⟩,
                        Or.inr ⟨s.1, s.2, i, rfl⟩⟩
                  | slice s a b c =>
                      simp [RQ.isSingularLoop, RQ.SegmentSingularShape,
                        RQ.SelectorNameOrIndex]
                  | wild s =>
                      simp [RQ.isSingularLoop, RQ.SegmentSingularShape,
                        RQ.SelectorNameOrIndex]
                  | filter s e =>
                      simp [RQ.isSingularLoop, RQ.SegmentSingularShape,
                        RQ.SelectorNameOrIndex]
              | cons sel2 rest3 =>
                  simp [RQ.isSingularLoop, RQ.SegmentSingularShape]
      | recursive sp selectors =>
          simp [RQ.isSingularLoop, RQ.SegmentSingularShape]

/-- A Name selector yields at most one node and never errors. -/
theorem name_resolve_len (n : String) (node : Serde.Node) (ctx : Serde.QueryContext) :
    ∃ ns, Serde.Selector.resolve (Serde.Selector.name n) node ctx = Except.ok ns ∧
      ns.length ≤ 1 := by
  cases h : node.value.getMember n with
  | none => exact ⟨[], by simp [Serde.Selector.resolve, h], by simp⟩
  | some v =>
      exact ⟨[node.new_child_member v n], by simp [Serde.Selector.resolve, h], by simp⟩

/-- An Index selector yields at most one node and never errors. -/
theorem index_resolve_len (i : Int) (node : Serde.Node) (ctx : Serde.QueryContext) :
    ∃ ns, Serde.Selector.resolve (Serde.Selector.index i) node ctx = Except.ok ns ∧
      ns.length ≤ 1 := by
  cases h : node.value.asArray with
  | none => exact ⟨[], by simp [Serde.Selector.resolve, h], by simp⟩
  | some array =>
      cases h2 : array[Serde.norm_index i array.length]? with
      | none => exact ⟨[], by simp [Serde.Selector.resolve, h, h2], by simp⟩
      | some v =>
          exact ⟨[node.new_child_element v (Serde.norm_index i array.length)],
            by simp [Serde.Selector.resolve, h, h2], by simp⟩

/-- A singular-shape segment maps a node list of length at most one to a
node list of length at most one, without error. -/
theorem segment_singular_len (seg : Serde.Segment) (nodes : List Serde.Node)
    (ctx : Serde.QueryContext) (hshape : Serde.SegmentSingularShape seg)
    (hlen : nodes.length ≤ 1) :
    ∃ ns, Serde.Segment.resolve seg nodes ctx = Except.ok ns ∧ ns.length ≤ 1 := by
  obtain ⟨sel, rfl, hsel⟩ := hshape
  cases nodes with
  | nil => exact ⟨[], by simp [Serde.Segment.resolve, Serde.selResolveNodes], by simp⟩
  | cons node rest =>
      cases rest with
      | nil =>
          rcases hsel with ⟨n, rfl⟩ | ⟨i, rfl⟩
          · obtain ⟨ns, hok, hle⟩ := name_resolve_len n node ctx
            refine ⟨ns ++ [] ++ [], ?_, by simpa using hle⟩
            simp [Serde.Segment.resolve, Serde.selResolveNodes, Serde.selResolveOne, hok]
          · obtain ⟨ns, hok, hle⟩ := index_resolve_len i node ctx
            refine ⟨ns ++ [] ++ [], ?_, by simpa using hle⟩
            simp [Serde.Segment.resolve, Serde.selResolveNodes, Serde.selResolveOne, hok]
      | cons node2 rest2 => simp at hlen

/-- The segment fold of Query::find keeps a singular query's node list at
length at most one and never errors. -/
theorem segmentsFold_singular (segs : List Serde.Segment)
    (hshape : ∀ seg ∈ segs, Serde.SegmentSingularShape seg) :
    ∀ (nodes : List Serde.Node) (ctx : Serde.QueryContext), nodes.length ≤ 1 →
      ∃ ns, Serde.segmentsFold segs nodes ctx = Except.ok ns ∧ ns.length ≤ 1 := by
  induction segs with
  | nil => exact fun nodes ctx h => ⟨nodes, by simp [Serde.segmentsFold], h⟩
  | cons seg rest ih =>
      intro nodes ctx hlen
      obtain ⟨ns, hok, hle⟩ :=
        segment_singular_len seg nodes ctx (hshape seg (by simp)) hlen
      obtain ⟨ns2, hok2, hle2⟩ :=
        ih (fun s hs => hshape s (by simp [hs])) ns ctx hle
      exact ⟨ns2, by simp [Serde.segmentsFold, hok, hok2], hle2⟩

/-- C5: is_singular(q) is true (in both the main crate's early-return loop
and the serde crate's all-segments check) exactly when every segment of q
is a child segment holding exactly one Name or Index selector; and a
singular query yields at most one node on any document, without error. -/
theorem singular_query_inference :
    (∀ q : RQ.Query, q.is_singular = true ↔
        ∀ seg ∈ q.segments, RQ.SegmentSingularShape seg) ∧
      (∀ q : Serde.Query, q.is_singular = true ↔
        ∀ seg ∈ q.segments, Serde.SegmentSingularShape seg) ∧
      ∀ (q : Serde.Query) (v : JsonValue) (env : Serde.Environment),
        q.is_singular = true →
          ∃ ns, Serde.Query.find q v env = Except.ok ns ∧ ns.length ≤ 1 := by
  refine ⟨?_, serde_is_singular_iff, ?_⟩
  · intro q
    rcases q with ⟨segs⟩
    exact rq_isSingularLoop_iff segs
  · intro q v env hsing
    obtain ⟨ns, hok, hle⟩ :=
      segmentsFold_singular q.segments ((serde_is_singular_iff q).mp hsing)
        [{ value := v, location := "$" }] { env := env, root := v } (by simp)
    exact ⟨ns, by simpa [Serde.Query.find] using hok, hle⟩

/-- Witness for C5 at a concrete singular query and document. -/
theorem singular_query_inference_witness :
    ∃ ns, Serde.Query.find (Serde.Query.mk [Serde.Segment.child [Serde.Selector.name "a"]])
        (JsonValue.obj [("a", JsonValue.int 7)])
        { function_register := fun _ => none } = Except.ok ns ∧ ns.length ≤ 1 :=
  singular_query_inference.2.2
    (Serde.Query.mk [Serde.Segment.child [Serde.Selector.name "a"]])
    (JsonValue.obj [("a", JsonValue.int 7)])
    { function_register := fun _ => none } (by rfl)

/-- C1: the slice-symmetry claim fails on the code. The shared slice
function clamps a given non-negative start to length-1 instead of length,
so on the array [1,2,3] the slice with start 5 (step defaulting to 1)
yields the element at index 2, where the Python-semantics range (and RFC
9535's bounds) is empty; the evaluator therefore returns the node [3] at
$[2] for that selector instead of an empty node list. -/
theorem slice_start_clamp_code_bug :
    Serde.slice [JsonValue.int 1, JsonValue.int 2, JsonValue.int 3]
        (some 5) none none = [(2, JsonValue.int 3)] ∧
      range_with_python_semantics (some 5) none none 3 = [] ∧
      ∀ env : Serde.Environment,
        Serde.Query.find
            (Serde.Query.mk [Serde.Segment.child [Serde.Selector.slice (some 5) none none]])
            (JsonValue.arr [JsonValue.int 1, JsonValue.int 2, JsonValue.int 3]) env =
          Except.ok [{ value := JsonValue.int 3, location := "$[2]" }] := by
  refine ⟨?_, ?_, ?_⟩
  · simp [Serde.slice, Serde.sliceFwd]
  · simp [range_with_python_semantics, pyRangeFwd]
  · intro env
    simp [Serde.Query.find, Serde.Query.segments, Serde.segmentsFold,
      Serde.Segment.resolve, Serde.selResolveNodes, Serde.selResolveOne,
      Serde.Selector.resolve, Serde.slice, Serde.sliceFwd, JsonValue.asArray,
      Serde.Node.new_child_element]
    rfl

/-- is_truthy_ref computes the same truth value as is_truthy. -/
theorem is_truthy_ref_eq (r : Serde.FilterExpressionResult) :
    Serde.is_truthy_ref r = Serde.is_truthy r := by
  cases r <;> rfl

/-- The array filter loop equals the collect-then-filter iterator chain. -/
theorem loopFilterArr_eq (e : Serde.FilterExpression) (node : Serde.Node)
    (pairs : List (Nat × JsonValue)) (ctx : Serde.QueryContext) :
    Serde.loopFilterArr e node pairs ctx =
      match Serde.collectResults (Serde.mapEvalArr e pairs ctx) with
      | Except.error er => Except.error er
      | Except.ok triples =>
          Except.ok ((triples.filter (fun t => Serde.is_truthy_ref t.2.2)).map
            (fun t => node.new_child_element t.2.1 t.1)) := by
  induction pairs with
  | nil => simp [Serde.loopFilterArr, Serde.mapEvalArr, Serde.collectResults]
  | cons p rest ih =>
      obtain ⟨i, v⟩ := p
      cases hev : Serde.FilterExpression.evaluate e v ctx with
      | error er =>
          simp [Serde.loopFilterArr, Serde.mapEvalArr, Serde.collectResults, hev]
      | ok r =>
          cases hrest : Serde.collectResults (Serde.mapEvalArr e rest ctx) with
          | error er =>
              simp only [Serde.loopFilterArr, Serde.mapEvalArr, Serde.collectResults,
                hev, hrest] at ih ⊢
              simp [ih]
          | ok tail =>
              simp only [Serde.loopFilterArr, Serde.mapEvalArr, Serde.collectResults,
                hev, hrest] at ih ⊢
              simp [ih, is_truthy_ref_eq]
              by_cases ht : Serde.is_truthy r = true <;> simp [ht]

/-- The object filter loop equals the collect-then-filter iterator chain. -/
theorem loopFilterObj_eq (e : Serde.FilterExpression) (node : Serde.Node)
    (members : List (String × JsonValue)) (ctx : Serde.QueryContext) :
    Serde.loopFilterObj e node members ctx =
      match Serde.collectResults (Serde.mapEvalObj e members ctx) with
      | Except.error er => Except.error er
      | Except.ok triples =>
          Except.ok ((triples.filter (fun t => Serde.is_truthy_ref t.2.2)).map
            (fun t => node.new_child_member t.2.1 t.1)) := by
  induction members with
  | nil => simp [Serde.loopFilterObj, Serde.mapEvalObj, Serde.collectResults]
  | cons p rest ih =>
      obtain ⟨k, v⟩ := p
      cases hev : Serde.FilterExpression.evaluate e v ctx with
      | error er =>
          simp [Serde.loopFilterObj, Serde.mapEvalObj, Serde.collectResults, hev]
      | ok r =>
          cases hrest : Serde.collectResults (Serde.mapEvalObj e rest ctx) with
          | error er =>
              simp only [Serde.loopFilterObj, Serde.mapEvalObj, Serde.collectResults,
                hev, hrest] at ih ⊢
              simp [ih]
          | ok tail =>
              simp only [Serde.loopFilterObj, Serde.mapEvalObj, Serde.collectResults,
                hev, hrest] at ih ⊢
              simp [ih, is_truthy_ref_eq]
              by_cases ht : Serde.is_truthy r = true <;> simp [ht]

/-- Selector::resolve_loop computes exactly Selector::resolve. -/
theorem selector_resolve_loop_eq (sel : Serde.Selector) (node : Serde.Node)
    (ctx : Serde.QueryContext) :
    Serde.Selector.resolve_loop sel node ctx = Serde.Selector.resolve sel node ctx := by
  cases sel with
  | name n => simp [Serde.Selector.resolve_loop, Serde.Selector.resolve]
  | index i => simp [Serde.Selector.resolve_loop, Serde.Selector.resolve]
  | slice a b c => simp [Serde.Selector.resolve_loop, Serde.Selector.resolve]
  | wild => simp [Serde.Selector.resolve_loop, Serde.Selector.resolve]
  | filter e =>
      cases hv : node.value with
      | arr elems =>
          simp only [Serde.Selector.resolve_loop, Serde.Selector.resolve, hv]
          exact loopFilterArr_eq e node (Serde.enumerate elems) ctx
      | obj members =>
          simp only [Serde.Selector.resolve_loop, Serde.Selector.resolve, hv]
          exact loopFilterObj_eq e node members ctx
      | null => simp [Serde.Selector.resolve_loop, Serde.Selector.resolve, hv]
      | bool b => simp [Serde.Selector.resolve_loop, Serde.Selector.resolve, hv]
      | int n => simp [Serde.Selector.resolve_loop, Serde.Selector.resolve, hv]
      | float x => simp [Serde.Selector.resolve_loop, Serde.Selector.resolve, hv]
      | str s => simp [Serde.Selector.resolve_loop, Serde.Selector.resolve, hv]

/-- The child-segment inner loop equals the per-node iterator collection. -/
theorem loopChildNode_eq (node : Serde.Node) (selectors : List Serde.Selector)
    (ctx : Serde.QueryContext) :
    Serde.loopChildNode node selectors ctx = Serde.selResolveOne node selectors ctx := by
  induction selectors with
  | nil => simp [Serde.loopChildNode, Serde.selResolveOne]
  | cons sel rest ih =>
      simp only [Serde.loopChildNode, Serde.selResolveOne, ih]

/-- The child-segment outer loop equals the node-major iterator collection. -/
theorem loopChild_eq (nodes : List Serde.Node) (selectors : List Serde.Selector)
    (ctx : Serde.QueryContext) :
    Serde.loopChild nodes selectors ctx = Serde.selResolveNodes nodes selectors ctx := by
  induction nodes with
  | nil => simp [Serde.loopChild, Serde.selResolveNodes]
  | cons node rest ih =>
      simp only [Serde.loopChild, Serde.selResolveNodes, ih, loopChildNode_eq]

/-- The recursive-segment inner selector loop (which uses resolve_loop)
equals the per-node iterator collection (which uses resolve). -/
theorem loopRecNode_eq (node : Serde.Node) (selectors : List Serde.Selector)
    (ctx : Serde.QueryContext) :
    Serde.loopRecNode node selectors ctx = Serde.selResolveOne node selectors ctx := by
  induction selectors with
  | nil => simp [Serde.loopRecNode, Serde.selResolveOne]
  | cons sel rest ih =>
      simp only [Serde.loopRecNode, Serde.selResolveOne, ih, selector_resolve_loop_eq]

/-- selResolveNodes distributes over list append the way nested loops do. -/
theorem selResolveNodes_append (xs ys : List Serde.Node)
    (selectors : List Serde.Selector) (ctx : Serde.QueryContext) :
    Serde.selResolveNodes (xs ++ ys) selectors ctx =
      match Serde.selResolveNodes xs selectors ctx with
      | Except.error e => Except.error e
      | Except.ok a =>
          match Serde.selResolveNodes ys selectors ctx with
          | Except.error e => Except.error e
          | Except.ok b => Except.ok (a ++ b) := by
  induction xs with
  | nil =>
      simp only [List.nil_append, Serde.selResolveNodes]
      cases Serde.selResolveNodes ys selectors ctx <;> simp
  | cons x rest ih =>
      simp only [List.cons_append, Serde.selResolveNodes, ih]
      cases Serde.selResolveOne x selectors ctx <;> simp
      cases Serde.selResolveNodes rest selectors ctx <;> simp
      cases Serde.selResolveNodes ys selectors ctx <;> simp

/-- The recursive-segment visited-nodes loop equals the iterator collection
over the visited list. -/
theorem loopRecVisited_eq (visited : List Serde.Node)
    (selectors : List Serde.Selector) (ctx : Serde.QueryContext) :
    Serde.loopRecVisited visited selectors ctx =
      Serde.selResolveNodes visited selectors ctx := by
  induction visited with
  | nil => simp [Serde.loopRecVisited, Serde.selResolveNodes]
  | cons node rest ih =>
      simp only [Serde.loopRecVisited, Serde.selResolveNodes, ih, loopRecNode_eq]

/-- The recursive-segment loop equals the iterator collection over the
flat-mapped visit of the input nodes. -/
theorem loopRec_eq (nodes : List Serde.Node) (selectors : List Serde.Selector)
    (ctx : Serde.QueryContext) :
    Serde.loopRec nodes selectors ctx =
      Serde.selResolveNodes (nodes.flatMap Serde.visit) selectors ctx := by
  induction nodes with
  | nil => simp [Serde.loopRec, Serde.selResolveNodes]
  | cons node rest ih =>
      simp only [Serde.loopRec, ih, loopRecVisited_eq, List.flatMap_cons,
        selResolveNodes_append]

/-- Segment::resolve_loop computes exactly Segment::resolve. -/
theorem segment_resolve_loop_eq (seg : Serde.Segment) (nodes : List Serde.Node)
    (ctx : Serde.QueryContext) :
    Serde.Segment.resolve_loop seg nodes ctx = Serde.Segment.resolve seg nodes ctx := by
  cases seg with
  | child selectors =>
      simp only [Serde.Segment.resolve_loop, Serde.Segment.resolve, loopChild_eq]
  | recursive selectors =>
      simp only [Serde.Segment.resolve_loop, Serde.Segment.resolve, loopRec_eq]
  | eoi => simp [Serde.Segment.resolve_loop, Serde.Segment.resolve]

/-- The explicit segment loop equals the try_fold over segments. -/
theorem segmentsFoldLoop_eq (segs : List Serde.Segment) (nodes : List Serde.Node)
    (ctx : Serde.QueryContext) :
    Serde.segmentsFoldLoop segs nodes ctx = Serde.segmentsFold segs nodes ctx := by
  induction segs generalizing nodes with
  | nil => simp [Serde.segmentsFoldLoop, Serde.segmentsFold]
  | cons seg rest ih =>
      simp only [Serde.segmentsFoldLoop, Serde.segmentsFold, segment_resolve_loop_eq]
      cases Serde.Segment.resolve seg nodes ctx <;> simp [ih]

/-- C9: the iterator-based evaluator find and the explicit-loop evaluator
find_loop return identical results on every query, document and
environment: the same node list (values, locations and order) on success
and the same error otherwise. -/
theorem find_loop_eq_find (q : Serde.Query) (v : JsonValue) (env : Serde.Environment) :
    Serde.Query.find_loop q v env = Serde.Query.find q v env := by
  simp only [Serde.Query.find_loop, Serde.Query.find, segmentsFoldLoop_eq]

/-- C3: the main crate's unescape_string combines ANY two adjacent
backslash-u escapes with the surrogate-pair formula, without checking that
the first is a high surrogate and the second a low surrogate: the input
text backslash-u0041 backslash-u0042 decodes to the single code point
U+20442 instead of the two characters A and B. The serde crate's decoder
(decode_hex_char, exercised through unescape) behaves as the claim states:
it yields the two separate characters, combines a true surrogate pair, and
both decoders reject a lone surrogate. -/
theorem unescape_adjacent_u_escapes_code_bug :
    RQ.unescape_string "\\u0041\\u0042" (0, 12) =
        Except.ok (String.singleton (Char.ofNat 0x20442)) ∧
      Serde.unescape
          [0x5C, 0x75, 0x30, 0x30, 0x34, 0x31, 0x5C, 0x75, 0x30, 0x30, 0x34, 0x32] =
        Except.ok [0x41, 0x42] ∧
      RQ.unescape_string "\\uD83D\\uDE00" (0, 12) =
        Except.ok (String.singleton (Char.ofNat 0x1F600)) ∧
      (∃ err, RQ.unescape_string "\\uD800" (0, 6) = Except.error err) ∧
      (∃ err, Serde.unescape [0x5C, 0x75, 0x44, 0x38, 0x30, 0x30] = Except.error err) := by
  refine ⟨by rfl, by rfl, by rfl, ⟨_, by rfl⟩, ⟨_, by rfl⟩⟩

/-- C4: the main crate's unescape_string swaps the backspace and form-feed
escapes: backslash-b decodes to U+000C (form feed) and backslash-f to
U+0008 (backspace), the reverse of the JSON escape mapping the claim
states; the serde crate's unescape has the correct mapping. -/
theorem unescape_b_f_swapped_code_bug :
    RQ.unescape_string "\\b" (0, 2) = Except.ok (String.singleton (Char.ofNat 0x0C)) ∧
      RQ.unescape_string "\\f" (0, 2) = Except.ok (String.singleton (Char.ofNat 0x08)) ∧
      Serde.unescape [0x5C, 0x62] = Except.ok [0x08] ∧
      Serde.unescape [0x5C, 0x66] = Except.ok [0x0C] :=
  ⟨by rfl, by rfl, by rfl, by rfl⟩

/-- C7: normalized paths do not escape quotes or backslashes. For the
member name a'b (with a literal single quote), the locations crate's
Node::path and the serde crate's member-location constructor both render
$['a'b'] with the quote inserted verbatim, not the claim's $['a\'b'] with
a backslash before the contained quote; likewise for a backslash in the
name, so the claim fails on both cited renderers. -/
theorem normalized_path_escaping_code_bug :
    Loc.Node.path { value := JsonValue.int 1, location := [Loc.PathElement.name "a\'b"] } =
        "$[\'a\'b\']" ∧
      (Serde.Node.new_child_member { value := JsonValue.null, location := "$" }
        (JsonValue.int 1) "a\'b").location = "$[\'a\'b\']" ∧
      "$[\'a\'b\']" ≠ "$[\'a\\\'b\']" ∧
      Loc.Node.path { value := JsonValue.int 1, location := [Loc.PathElement.name "a\\b"] } =
        "$[\'a\\b\']" ∧
      "$[\'a\\b\']" ≠ "$[\'a\\\\b\']" :=
  ⟨by rfl, by rfl, by decide, by rfl, by decide⟩

/-- C2 counterexample: a function call with registered return type Value
used as an operand of a logical and parses successfully, where the claim
requires the error result of length() must be compared. -/
theorem value_function_logical_operand_accepted :
    exceptIsOk (RQ.Query.standard "$[?length(@.a)&&@.b]") = true := by rfl

/-- C2 as amended: a Value-returning function call as the WHOLE filter body
is rejected with result of f() must be compared (shown both for every
token stream and fuel at the parse_filter entry, and at a concrete query
string), while as an operand of a logical and or or no such check runs:
parse_infix_expression accepts any non-literal operands, whatever their
registered return type. -/
theorem value_function_must_be_compared_amended :
    (∀ (p : RQ.Parser) (fuel : Nat) (t : RQ.Token) (it it2 : List RQ.Token)
        (expr : RQ.FilterExpression) (name : String)
        (args : List RQ.FilterExpression) (sigParams : List RQ.ExpressionType),
        p.parse_filter_expression fuel it RQ.PRECEDENCE_LOWEST =
            Except.ok (expr, it2) →
        expr.kind = RQ.FilterExpressionType.function name args →
        p.getFunction name = some ⟨sigParams, RQ.ExpressionType.value⟩ →
        p.parse_filter (fuel + 1) (t :: it) =
          Except.error (RQ.JSONPathError.typ
            ("result of " ++ name ++ "() must be compared") expr.span)) ∧
      (∀ (p : RQ.Parser) (fuel : Nat) (sp : Nat × Nat) (it it2 : List RQ.Token)
          (left right : RQ.FilterExpression),
          p.parse_filter_expression fuel it RQ.PRECEDENCE_LOGICAL_AND =
              Except.ok (right, it2) →
          left.is_literal = false → right.is_literal = false →
          p.parse_infix_expression (fuel + 1)
              ({ kind := RQ.TokenType.and, span := sp } :: it) left =
            Except.ok (RQ.FilterExpression.mk left.span
              (RQ.FilterExpressionType.logical left RQ.LogicalOperator.and right),
              it2)) ∧
      (∀ (p : RQ.Parser) (fuel : Nat) (sp : Nat × Nat) (it it2 : List RQ.Token)
          (left right : RQ.FilterExpression),
          p.parse_filter_expression fuel it RQ.PRECEDENCE_LOGICAL_OR =
              Except.ok (right, it2) →
          left.is_literal = false → right.is_literal = false →
          p.parse_infix_expression (fuel + 1)
              ({ kind := RQ.TokenType.or, span := sp } :: it) left =
            Except.ok (RQ.FilterExpression.mk left.span
              (RQ.FilterExpressionType.logical left RQ.LogicalOperator.or right),
              it2)) ∧
      RQ.Query.standard "$[?value(@..color)]" =
        Except.error (RQ.JSONPathError.typ
          "result of value() must be compared" (3, 8)) := by
  refine ⟨?_, ?_, ?_, by rfl⟩
  · intro p fuel t it it2 expr name args sigParams hparse hkind hfn
    rcases expr with ⟨span, kind⟩
    simp only [RQ.FilterExpression.kind] at hkind
    subst hkind
    simp only [RQ.Parser.parse_filter, RQ.tsNext]
    rw [hparse]
    simp [hfn, RQ.FilterExpression.kind, RQ.FilterExpression.span]
  · intro p fuel sp it it2 left right hparse hleft hright
    simp only [RQ.Parser.parse_infix_expression, RQ.tsNext,
      RQ.Parser.precedence]
    rw [hparse]
    simp [hleft, hright]
  · intro p fuel sp it it2 left right hparse hleft hright
    simp only [RQ.Parser.parse_infix_expression, RQ.tsNext,
      RQ.Parser.precedence]
    rw [hparse]
    simp [hleft, hright]

/-- Witness for the amended C2 at concrete inputs: the body rejection at
the query with value() as whole filter body, and the logical-operand
acceptance at a concrete and of two relative queries. -/
theorem value_function_must_be_compared_amended_witness :
    RQ.Parser.new.parse_filter 7
        ({ kind := RQ.TokenType.filter, span := (2, 3) } ::
          [{ kind := RQ.TokenType.function "value", span := (3, 8) },
           { kind := RQ.TokenType.current, span := (9, 10) },
           { kind := RQ.TokenType.rParen, span := (10, 11) },
           { kind := RQ.TokenType.rBracket, span := (11, 12) },
           { kind := RQ.TokenType.eoq, span := (12, 12) }]) =
      Except.error (RQ.JSONPathError.typ
        "result of value() must be compared" (3, 8)) :=
  value_function_must_be_compared_amended.1 RQ.Parser.new 6
    { kind := RQ.TokenType.filter, span := (2, 3) }
    [{ kind := RQ.TokenType.function "value", span := (3, 8) },
     { kind := RQ.TokenType.current, span := (9, 10) },
     { kind := RQ.TokenType.rParen, span := (10, 11) },
     { kind := RQ.TokenType.rBracket, span := (11, 12) },
     { kind := RQ.TokenType.eoq, span := (12, 12) }]
    [{ kind := RQ.TokenType.rBracket, span := (11, 12) },
     { kind := RQ.TokenType.eoq, span := (12, 12) }]
    (RQ.FilterExpression.mk (3, 8)
      (RQ.FilterExpressionType.function "value"
        [RQ.FilterExpression.mk (9, 10)
          (RQ.FilterExpressionType.relativeQuery (RQ.Query.mk []))]))
    "value"
    [RQ.FilterExpression.mk (9, 10)
      (RQ.FilterExpressionType.relativeQuery (RQ.Query.mk []))]
    [RQ.ExpressionType.nodes]
    (by rfl) (by rfl) (by rfl)

/-- C8 counterexample: on the query string percent the tokenizer ends with
an Error token, yet the parse entry point returns an error of kind
SyntaxError, not LexerError. -/
theorem lexer_error_kind_counterexample :
    (RQ.tokenize "%").getLast? =
        some { kind := RQ.TokenType.error "expected \'$\', found \'%\'",
               span := (0, 1) } ∧
      RQ.Query.standard "%" =
        Except.error { kind := RQ.JSONPathErrorType.syntaxError,
                       msg := "expected \'$\', found \'%\'",
                       span := (0, 1) } ∧
      RQ.JSONPathErrorType.syntaxError ≠ RQ.JSONPathErrorType.lexerError :=
  ⟨by rfl, by rfl, by decide⟩

/-- C8 as amended: whenever the tokenizer ends with an Error token, the
parse entry point returns an error of kind SyntaxError carrying the error
token message and span; the LexerError kind exists but is never
constructed. -/
theorem lexer_error_converted_at_parse_boundary :
    ∀ (q msg : String) (span : Nat × Nat),
      (RQ.tokenize q).getLast? =
          some { kind := RQ.TokenType.error msg, span := span } →
      RQ.Parser.new.parse q =
        Except.error { kind := RQ.JSONPathErrorType.syntaxError,
                       msg := msg, span := span } := by
  intro q msg span h
  simp only [RQ.Parser.parse, RQ.lex, h, RQ.JSONPathError.syntaxErr]

/-- Witness for the amended C8 at the concrete query percent. -/
theorem lexer_error_converted_at_parse_boundary_witness :
    RQ.Parser.new.parse "%" =
      Except.error { kind := RQ.JSONPathErrorType.syntaxError,
                     msg := "expected \'$\', found \'%\'",
                     span := (0, 1) } :=
  lexer_error_converted_at_parse_boundary "%"
    "expected \'$\', found \'%\'" (0, 1) (by rfl)

/-- A coerced JSON value is never a node list. -/
theorem from_json_value_compareSafe (v : JsonValue) :
    Serde.compareSafe (Serde.FilterExpressionResult.from_json_value v) = true := by
  cases v <;> rfl

/-- A coerced JSON value is never a node list (post-coercion shape). -/
theorem from_json_value_emptyOrNotNodes (v : JsonValue) :
    Serde.emptyOrNotNodes (Serde.FilterExpressionResult.from_json_value v) = true := by
  cases v <;> rfl

/-- Every function of the standard register returns a compare-safe value on
every argument list. -/
theorem standardEnv_safe (m s : String → String → Bool) :
    Serde.Environment.safe (Serde.standardEnv m s) := by
  intro name ext h vals
  simp only [Serde.standardEnv] at h
  split_ifs at h <;> injection h with h <;> subst h
  · rcases vals with _ | ⟨v, rest⟩
    · rfl
    · rcases v <;> rfl
  · rcases vals with _ | ⟨v, rest⟩
    · rfl
    · rcases v with _ | _ | _ | _ | _ | a | o | _ | _
      all_goals try rfl
      · rcases a <;> rfl
      · rcases o <;> rfl
  · rcases vals with _ | ⟨v, rest⟩
    · rfl
    · rcases rest with _ | ⟨u, rest2⟩
      · rcases v <;> rfl
      · rcases v <;> rcases u <;> rfl
  · rcases vals with _ | ⟨v, rest⟩
    · rfl
    · rcases rest with _ | ⟨u, rest2⟩
      · rcases v <;> rfl
      · rcases v <;> rcases u <;> rfl
  · rcases vals with _ | ⟨v, rest⟩
    · rfl
    · rcases v with _ | _ | _ | _ | _ | _ | _ | ns | _
      all_goals try rfl
      rcases ns with _ | ⟨a, rest2⟩
      · rfl
      · rcases rest2 with _ | ⟨b, rest3⟩
        · exact from_json_value_compareSafe a.value
        · rfl

/-- The singleton coercion of a compare-safe value is an empty node list or
no node list at all. -/
theorem nodes_or_singular_safe (x : Serde.FilterExpressionResult)
    (h : Serde.compareSafe x = true) :
    Serde.emptyOrNotNodes (Serde.nodes_or_singular x) = true := by
  rcases x with _ | _ | _ | _ | _ | _ | _ | ns | _
  all_goals try rfl
  simp only [Serde.compareSafe, decide_eq_true_eq] at h
  rcases ns with _ | ⟨a, rest⟩
  · rfl
  · rcases rest with _ | ⟨b, rest2⟩
    · simpa [Serde.nodes_or_singular] using from_json_value_emptyOrNotNodes a.value
    · simp at h

/-- eq never reaches its unreachable branch on post-coercion shapes: when
both operands are empty node lists or not node lists, it returns a boolean. -/
theorem eq_ok (l r : Serde.FilterExpressionResult)
    (hl : Serde.emptyOrNotNodes l = true) (hr : Serde.emptyOrNotNodes r = true) :
    ∃ b, Serde.eq l r = Except.ok b := by
  cases l <;> cases r <;> simp only [Serde.emptyOrNotNodes] at hl hr <;>
    first
    | exact ⟨_, rfl⟩
    | · simp only [Serde.eq, hl, hr, Bool.and_self, if_true]
        exact ⟨true, rfl⟩

/-- compare is total on compare-safe operands: it never returns the panic
marker. -/
theorem compare_ok (l r : Serde.FilterExpressionResult)
    (op : Serde.ComparisonOperator)
    (hl : Serde.compareSafe l = true) (hr : Serde.compareSafe r = true) :
    ∃ b, Serde.compare l op r = Except.ok b := by
  have h1 := nodes_or_singular_safe l hl
  have h2 := nodes_or_singular_safe r hr
  obtain ⟨b, hb⟩ := eq_ok (Serde.nodes_or_singular l) (Serde.nodes_or_singular r) h1 h2
  cases op with
  | eq => exact ⟨b, by simp [Serde.compare, hb]⟩
  | ne => exact ⟨!b, by simp [Serde.compare, hb, Except.map]⟩
  | lt => exact ⟨_, rfl⟩
  | gt => exact ⟨_, rfl⟩
  | ge =>
      by_cases hlt : Serde.lt (Serde.nodes_or_singular r) (Serde.nodes_or_singular l) = true
      · exact ⟨true, by simp [Serde.compare, hlt]⟩
      · exact ⟨b, by simp [Serde.compare, hlt, hb]⟩
  | le =>
      by_cases hlt : Serde.lt (Serde.nodes_or_singular l) (Serde.nodes_or_singular r) = true
      · exact ⟨true, by simp [Serde.compare, hlt]⟩
      · exact ⟨b, by simp [Serde.compare, hlt, hb]⟩

/-- unpack_result succeeds on every in-range parameter slot. -/
theorem unpack_result_ok (rv : Serde.FilterExpressionResult)
    (pts : List Serde.ExpressionType) (i : Nat) (h : i < pts.length) :
    ∃ u, Serde.unpack_result rv pts i = Except.ok u := by
  rcases hg : pts.get? i with _ | t
  · rw [List.get?_eq_none] at hg
    omega
  · unfold Serde.unpack_result
    rw [hg]
    by_cases ht : t = Serde.ExpressionType.nodes
    · exact ⟨rv, by simp [ht]⟩
    · simp only [if_neg ht]
      rcases rv with _ | _ | _ | _ | _ | _ | _ | ns | _
      all_goals try exact ⟨_, rfl⟩
      rcases ns with _ | ⟨a, rest⟩
      · exact ⟨_, rfl⟩
      · rcases rest with _ | ⟨b, rest2⟩ <;> exact ⟨_, rfl⟩

/-- selResolveNodes succeeds whenever the per-node resolution does. -/
theorem selResolveNodes_ok (sels : List Serde.Selector)
    (c : Serde.QueryContext)
    (hone : ∀ node, ∃ ns, Serde.selResolveOne node sels c = Except.ok ns) :
    ∀ nodes, ∃ ns, Serde.selResolveNodes nodes sels c = Except.ok ns := by
  intro nodes
  induction nodes with
  | nil => exact ⟨[], by simp [Serde.selResolveNodes]⟩
  | cons node rest ih =>
      obtain ⟨first, hf⟩ := hone node
      obtain ⟨tail, ht⟩ := ih
      exact ⟨first ++ tail, by simp [Serde.selResolveNodes, hf, ht]⟩

/-- Collecting the array-filter evaluations succeeds whenever each
evaluation does. -/
theorem collect_mapEvalArr_ok (e : Serde.FilterExpression)
    (c : Serde.QueryContext)
    (hev : ∀ v, ∃ r, Serde.FilterExpression.evaluate e v c = Except.ok r) :
    ∀ pairs, ∃ l, Serde.collectResults (Serde.mapEvalArr e pairs c) = Except.ok l := by
  intro pairs
  induction pairs with
  | nil => exact ⟨[], by simp [Serde.mapEvalArr, Serde.collectResults]⟩
  | cons p rest ih =>
      rcases p with ⟨i, v⟩
      obtain ⟨r, hr⟩ := hev v
      obtain ⟨l, hl⟩ := ih
      exact ⟨(i, v, r) :: l, by simp [Serde.mapEvalArr, hr, Serde.collectResults, hl]⟩

/-- Collecting the object-filter evaluations succeeds whenever each
evaluation does. -/
theorem collect_mapEvalObj_ok (e : Serde.FilterExpression)
    (c : Serde.QueryContext)
    (hev : ∀ v, ∃ r, Serde.FilterExpression.evaluate e v c = Except.ok r) :
    ∀ members, ∃ l, Serde.collectResults (Serde.mapEvalObj e members c) = Except.ok l := by
  intro members
  induction members with
  | nil => exact ⟨[], by simp [Serde.mapEvalObj, Serde.collectResults]⟩
  | cons p rest ih =>
      rcases p with ⟨k, v⟩
      obtain ⟨r, hr⟩ := hev v
      obtain ⟨l, hl⟩ := ih
      exact ⟨(k, v, r) :: l, by simp [Serde.mapEvalObj, hr, Serde.collectResults, hl]⟩

/-- A boolean-producing branch is always compare-safe. -/
theorem compareSafe_bool_if (p : Prop) [Decidable p] :
    Serde.compareSafe (if p then Serde.FilterExpressionResult.bool true
      else Serde.FilterExpressionResult.bool false) = true := by
  split <;> rfl

/-- Evaluation soundness, by strong induction on the size of the AST
fragment: in a safe environment every well-typed fragment evaluates without
error, and a comparable expression's value is compare-safe. -/
theorem serde_eval_ok_all : ∀ n : Nat, Serde.serdeEvalMotive n := by
  intro n
  induction n using Nat.strong_induction_on with
  | _ n ih =>
  have IHexpr : ∀ e : Serde.FilterExpression, sizeOf e < n →
      ∀ (current : JsonValue) (c : Serde.QueryContext), c.env.safe →
        Serde.exprWT c.env e = true →
        ∃ r, Serde.FilterExpression.evaluate e current c = Except.ok r ∧
          (Serde.comparableWT c.env e = true → Serde.compareSafe r = true) :=
    fun e he => (ih (sizeOf e) he).1 e (le_refl _)
  have IHargs : ∀ args : List Serde.FilterExpression, sizeOf args < n →
      ∀ (current : JsonValue) (c : Serde.QueryContext)
        (pts : List Serde.ExpressionType) (i : Nat), c.env.safe →
        Serde.argsWT c.env args = true → args.length + i ≤ pts.length →
        ∃ vals, Serde.argsEval args current c pts i = Except.ok vals :=
    fun args h => (ih (sizeOf args) h).2.1 args (le_refl _)
  have IHsel : ∀ sel : Serde.Selector, sizeOf sel < n →
      ∀ (node : Serde.Node) (c : Serde.QueryContext), c.env.safe →
        Serde.selWT c.env sel = true →
        ∃ ns, Serde.Selector.resolve sel node c = Except.ok ns :=
    fun sel h => (ih (sizeOf sel) h).2.2.1 sel (le_refl _)
  have IHsels : ∀ sels : List Serde.Selector, sizeOf sels < n →
      ∀ c : Serde.QueryContext, c.env.safe → Serde.selsWT c.env sels = true →
        (∀ node, ∃ ns, Serde.selResolveOne node sels c = Except.ok ns) ∧
        (∀ nodes, ∃ ns, Serde.selResolveNodes nodes sels c = Except.ok ns) :=
    fun sels h => (ih (sizeOf sels) h).2.2.2.1 sels (le_refl _)
  have IHseg : ∀ seg : Serde.Segment, sizeOf seg < n →
      ∀ (nodes : List Serde.Node) (c : Serde.QueryContext), c.env.safe →
        Serde.segWT c.env seg = true →
        ∃ ns, Serde.Segment.resolve seg nodes c = Except.ok ns :=
    fun seg h => (ih (sizeOf seg) h).2.2.2.2.1 seg (le_refl _)
  have IHsegs : ∀ segs : List Serde.Segment, sizeOf segs < n →
      ∀ (nodes : List Serde.Node) (c : Serde.QueryContext), c.env.safe →
        Serde.segsWT c.env segs = true →
        ∃ ns, Serde.segmentsFold segs nodes c = Except.ok ns :=
    fun segs h => (ih (sizeOf segs) h).2.2.2.2.2.1 segs (le_refl _)
  have IHquery : ∀ q : Serde.Query, sizeOf q < n →
      ∀ (v : JsonValue) (env : Serde.Environment), env.safe →
        Serde.queryWT env q = true →
        ∃ ns, Serde.Query.find q v env = Except.ok ns :=
    fun q h => (ih (sizeOf q) h).2.2.2.2.2.2 q (le_refl _)
  refine ⟨?_, ?_, ?_, ?_, ?_, ?_, ?_⟩
  · intro e hsize current c hsafe hwt
    cases e with
    | tru =>
        exact ⟨Serde.FilterExpressionResult.bool true,
          by simp [Serde.FilterExpression.evaluate], fun _ => rfl⟩
    | fls =>
        exact ⟨Serde.FilterExpressionResult.bool false,
          by simp [Serde.FilterExpression.evaluate], fun _ => rfl⟩
    | null =>
        exact ⟨Serde.FilterExpressionResult.null,
          by simp [Serde.FilterExpression.evaluate], fun _ => rfl⟩
    | str value =>
        exact ⟨Serde.FilterExpressionResult.str value,
          by simp [Serde.FilterExpression.evaluate], fun _ => rfl⟩
    | int value =>
        exact ⟨Serde.FilterExpressionResult.int value,
          by simp [Serde.FilterExpression.evaluate], fun _ => rfl⟩
    | float value =>
        exact ⟨Serde.FilterExpressionResult.float value,
          by simp [Serde.FilterExpression.evaluate], fun _ => rfl⟩
    | not e1 =>
        simp only [Serde.exprWT] at hwt
        have h1 : sizeOf e1 < n := by simp at hsize; omega
        obtain ⟨r1, hr1, _⟩ := IHexpr e1 h1 current c hsafe hwt
        cases htr : Serde.is_truthy r1
        · exact ⟨Serde.FilterExpressionResult.bool true,
            by simp [Serde.FilterExpression.evaluate, hr1, htr], fun _ => rfl⟩
        · exact ⟨Serde.FilterExpressionResult.bool false,
            by simp [Serde.FilterExpression.evaluate, hr1, htr], fun _ => rfl⟩
    | logical l op r =>
        simp only [Serde.exprWT, Bool.and_eq_true] at hwt
        rcases hwt with ⟨hl, hr⟩
        have h1 : sizeOf l < n := by simp at hsize; omega
        have h2 : sizeOf r < n := by simp at hsize; omega
        obtain ⟨lv, hlv, _⟩ := IHexpr l h1 current c hsafe hl
        obtain ⟨rv, hrv, _⟩ := IHexpr r h2 current c hsafe hr
        cases hlg : Serde.logical lv op rv
        · exact ⟨Serde.FilterExpressionResult.bool false,
            by simp [Serde.FilterExpression.evaluate, hlv, hrv, hlg], fun _ => rfl⟩
        · exact ⟨Serde.FilterExpressionResult.bool true,
            by simp [Serde.FilterExpression.evaluate, hlv, hrv, hlg], fun _ => rfl⟩
    | comparison l op r =>
        simp only [Serde.exprWT, Bool.and_eq_true] at hwt
        rcases hwt with ⟨⟨⟨hl, hr⟩, hcl⟩, hcr⟩
        have h1 : sizeOf l < n := by simp at hsize; omega
        have h2 : sizeOf r < n := by simp at hsize; omega
        obtain ⟨lv, hlv, hlsafe⟩ := IHexpr l h1 current c hsafe hl
        obtain ⟨rv, hrv, hrsafe⟩ := IHexpr r h2 current c hsafe hr
        obtain ⟨b, hb⟩ := compare_ok lv rv op (hlsafe hcl) (hrsafe hcr)
        cases b
        · exact ⟨Serde.FilterExpressionResult.bool false,
            by simp [Serde.FilterExpression.evaluate, hlv, hrv, hb], fun _ => rfl⟩
        · exact ⟨Serde.FilterExpressionResult.bool true,
            by simp [Serde.FilterExpression.evaluate, hlv, hrv, hb], fun _ => rfl⟩
    | relativeQuery q =>
        simp only [Serde.exprWT] at hwt
        have h1 : sizeOf q < n := by simp at hsize; omega
        obtain ⟨ns, hns⟩ := IHquery q h1 current c.env hsafe hwt
        refine ⟨Serde.FilterExpressionResult.nodes ns,
          by simp [Serde.FilterExpression.evaluate, hns], ?_⟩
        intro hcmp
        simp only [Serde.comparableWT] at hcmp
        obtain ⟨ns2, hok2, hle2⟩ :=
          segmentsFold_singular q.segments ((serde_is_singular_iff q).mp hcmp)
            [{ value := current, location := "$" }]
            { env := c.env, root := current } (by simp)
        have hfind : Serde.Query.find q current c.env = Except.ok ns2 := by
          simpa [Serde.Query.find] using hok2
        rw [hns] at hfind
        simp only [Except.ok.injEq] at hfind
        subst hfind
        simp only [Serde.compareSafe, decide_eq_true_eq]
        omega
    | rootQuery q =>
        simp only [Serde.exprWT] at hwt
        have h1 : sizeOf q < n := by simp at hsize; omega
        obtain ⟨ns, hns⟩ := IHquery q h1 c.root c.env hsafe hwt
        refine ⟨Serde.FilterExpressionResult.nodes ns,
          by simp [Serde.FilterExpression.evaluate, hns], ?_⟩
        intro hcmp
        simp only [Serde.comparableWT] at hcmp
        obtain ⟨ns2, hok2, hle2⟩ :=
          segmentsFold_singular q.segments ((serde_is_singular_iff q).mp hcmp)
            [{ value := c.root, location := "$" }]
            { env := c.env, root := c.root } (by simp)
        have hfind : Serde.Query.find q c.root c.env = Except.ok ns2 := by
          simpa [Serde.Query.find] using hok2
        rw [hns] at hfind
        simp only [Except.ok.injEq] at hfind
        subst hfind
        simp only [Serde.compareSafe, decide_eq_true_eq]
        omega
    | function name args =>
        simp only [Serde.exprWT, Bool.and_eq_true] at hwt
        rcases hwt with ⟨hreg0, hargs⟩
        cases hr : c.env.function_register name with
        | none => rw [hr] at hreg0; exact absurd hreg0 (by simp)
        | some ext =>
            rw [hr] at hreg0
            simp only [decide_eq_true_eq] at hreg0
            have h1 : sizeOf args < n := by simp at hsize; omega
            obtain ⟨vals, hvals⟩ :=
              IHargs args h1 current c ext.sig.param_types 0 hsafe hargs (by omega)
            exact ⟨ext.call vals,
              by simp [Serde.FilterExpression.evaluate, hr, hvals],
              fun _ => hsafe name ext hr vals⟩
  · intro args hsize current c pts i hsafe hwt hlen
    cases args with
    | nil => exact ⟨[], by simp [Serde.argsEval]⟩
    | cons a rest =>
        simp only [Serde.argsWT, Bool.and_eq_true] at hwt
        rcases hwt with ⟨ha, hrest⟩
        have h1 : sizeOf a < n := by simp at hsize; omega
        have h2 : sizeOf rest < n := by simp at hsize; omega
        obtain ⟨r, hr, _⟩ := IHexpr a h1 current c hsafe ha
        have hi : i < pts.length := by simp at hlen; omega
        obtain ⟨u, hu⟩ := unpack_result_ok r pts i hi
        obtain ⟨tail, htail⟩ :=
          IHargs rest h2 current c pts (i + 1) hsafe hrest (by simp at hlen ⊢; omega)
        exact ⟨u :: tail, by simp [Serde.argsEval, hr, hu, htail]⟩
  · intro sel hsize node c hsafe hwt
    cases sel with
    | name nm =>
        obtain ⟨ns, hok, _⟩ := name_resolve_len nm node c
        exact ⟨ns, hok⟩
    | index i =>
        obtain ⟨ns, hok, _⟩ := index_resolve_len i node c
        exact ⟨ns, hok⟩
    | slice a b st =>
        cases harr : node.value.asArray with
        | none => exact ⟨[], by simp [Serde.Selector.resolve, harr]⟩
        | some array =>
            exact ⟨(Serde.slice array a b st).map
                (fun p => node.new_child_element p.2 p.1.toNat),
              by simp [Serde.Selector.resolve, harr]⟩
    | wild =>
        rcases hv : node.value with _ | _ | _ | _ | _ | elems | members
        · exact ⟨[], by simp [Serde.Selector.resolve, hv]⟩
        · exact ⟨[], by simp [Serde.Selector.resolve, hv]⟩
        · exact ⟨[], by simp [Serde.Selector.resolve, hv]⟩
        · exact ⟨[], by simp [Serde.Selector.resolve, hv]⟩
        · exact ⟨[], by simp [Serde.Selector.resolve, hv]⟩
        · exact ⟨(Serde.enumerate elems).map (fun p => node.new_child_element p.2 p.1),
            by simp [Serde.Selector.resolve, hv]⟩
        · exact ⟨members.map (fun p => node.new_child_member p.2 p.1),
            by simp [Serde.Selector.resolve, hv]⟩
    | filter e =>
        simp only [Serde.selWT] at hwt
        have h1 : sizeOf e < n := by simp at hsize; omega
        have hev : ∀ v, ∃ r, Serde.FilterExpression.evaluate e v c = Except.ok r :=
          fun v => (IHexpr e h1 v c hsafe hwt).imp (fun r h => h.1)
        rcases hv : node.value with _ | _ | _ | _ | _ | elems | members
        · exact ⟨[], by simp [Serde.Selector.resolve, hv]⟩
        · exact ⟨[], by simp [Serde.Selector.resolve, hv]⟩
        · exact ⟨[], by simp [Serde.Selector.resolve, hv]⟩
        · exact ⟨[], by simp [Serde.Selector.resolve, hv]⟩
        · exact ⟨[], by simp [Serde.Selector.resolve, hv]⟩
        · obtain ⟨l, hl⟩ := collect_mapEvalArr_ok e c hev (Serde.enumerate elems)
          exact ⟨(l.filter (fun t => Serde.is_truthy_ref t.2.2)).map
              (fun t => node.new_child_element t.2.1 t.1),
            by simp [Serde.Selector.resolve, hv, hl]⟩
        · obtain ⟨l, hl⟩ := collect_mapEvalObj_ok e c hev members
          exact ⟨(l.filter (fun t => Serde.is_truthy_ref t.2.2)).map
              (fun t => node.new_child_member t.2.1 t.1),
            by simp [Serde.Selector.resolve, hv, hl]⟩
  · intro sels hsize c hsafe hwt
    cases sels with
    | nil =>
        have hone : ∀ node, ∃ ns,
            Serde.selResolveOne node ([] : List Serde.Selector) c = Except.ok ns :=
          fun node => ⟨[], by simp [Serde.selResolveOne]⟩
        exact ⟨hone, selResolveNodes_ok [] c hone⟩
    | cons sel rest =>
        simp only [Serde.selsWT, Bool.and_eq_true] at hwt
        rcases hwt with ⟨hsel, hrest⟩
        have h1 : sizeOf sel < n := by simp at hsize; omega
        have h2 : sizeOf rest < n := by simp at hsize; omega
        have hone : ∀ node, ∃ ns,
            Serde.selResolveOne node (sel :: rest) c = Except.ok ns := by
          intro node
          obtain ⟨first, hf⟩ := IHsel sel h1 node c hsafe hsel
          obtain ⟨tail, ht⟩ := (IHsels rest h2 c hsafe hrest).1 node
          exact ⟨first ++ tail, by simp [Serde.selResolveOne, hf, ht]⟩
        exact ⟨hone, selResolveNodes_ok _ c hone⟩
  · intro seg hsize nodes c hsafe hwt
    cases seg with
    | child sels =>
        simp only [Serde.segWT] at hwt
        have h1 : sizeOf sels < n := by simp at hsize; omega
        obtain ⟨ns, hns⟩ := (IHsels sels h1 c hsafe hwt).2 nodes
        exact ⟨ns, by simp [Serde.Segment.resolve, hns]⟩
    | recursive sels =>
        simp only [Serde.segWT] at hwt
        have h1 : sizeOf sels < n := by simp at hsize; omega
        obtain ⟨ns, hns⟩ := (IHsels sels h1 c hsafe hwt).2 (nodes.flatMap Serde.visit)
        exact ⟨ns, by simp [Serde.Segment.resolve, hns]⟩
    | eoi => exact ⟨nodes, by simp [Serde.Segment.resolve]⟩
  · intro segs hsize nodes c hsafe hwt
    cases segs with
    | nil => exact ⟨nodes, by simp [Serde.segmentsFold]⟩
    | cons seg rest =>
        simp only [Serde.segsWT, Bool.and_eq_true] at hwt
        rcases hwt with ⟨hseg, hrest⟩
        have h1 : sizeOf seg < n := by simp at hsize; omega
        have h2 : sizeOf rest < n := by simp at hsize; omega
        obtain ⟨ns1, hns1⟩ := IHseg seg h1 nodes c hsafe hseg
        obtain ⟨ns2, hns2⟩ := IHsegs rest h2 ns1 c hsafe hrest
        exact ⟨ns2, by simp [Serde.segmentsFold, hns1, hns2]⟩
  · intro q hsize v env hsafe hwt
    rcases q with ⟨segs⟩
    simp only [Serde.queryWT] at hwt
    have h1 : sizeOf segs < n := by simp at hsize; omega
    obtain ⟨ns, hns⟩ :=
      IHsegs segs h1 [{ value := v, location := "$" }] { env := env, root := v } hsafe hwt
    exact ⟨ns, by simp [Serde.Query.find, Serde.Query.segments, hns]⟩

/-- C6: evaluation does not raise errors. Against the standard function
registry, every well-typed query evaluates on every JSON value to a
successful node list; a Name selector applied to a value lacking that
member and an Index selector whose normalized index is out of range each
yield an empty node list rather than an error; and every function name the
main crate's parser accepts is registered in the standard environment. -/
theorem evaluation_never_errors :
    (∀ (m s : String → String → Bool) (q : Serde.Query) (v : JsonValue),
        Serde.queryWT (Serde.standardEnv m s) q = true →
        ∃ ns, Serde.Query.find q v (Serde.standardEnv m s) = Except.ok ns) ∧
      (∀ (nm : String) (node : Serde.Node) (c : Serde.QueryContext),
        node.value.getMember nm = none →
        Serde.Selector.resolve (Serde.Selector.name nm) node c = Except.ok []) ∧
      (∀ (i : Int) (array : List JsonValue) (node : Serde.Node)
          (c : Serde.QueryContext),
        node.value.asArray = some array →
        array.get? (Serde.norm_index i array.length) = none →
        Serde.Selector.resolve (Serde.Selector.index i) node c = Except.ok []) ∧
      (∀ (m s : String → String → Bool) (name : String)
          (sig : RQ.FunctionSignature),
        RQ.Parser.new.getFunction name = some sig →
        ∃ ext, (Serde.standardEnv m s).function_register name = some ext ∧
          ext.sig.param_types.length = sig.param_types.length) := by
  refine ⟨?_, ?_, ?_, ?_⟩
  · intro m s q v hwt
    exact (serde_eval_ok_all (sizeOf q)).2.2.2.2.2.2 q (le_refl _) v
      (Serde.standardEnv m s) (standardEnv_safe m s) hwt
  · intro nm node c h
    simp [Serde.Selector.resolve, h]
  · intro i array node c h1 h2
    simp [Serde.Selector.resolve, h1, ← List.get?_eq_getElem?, h2]
  · intro m s name sig h
    by_cases h1 : "count" = name
    · subst h1
      rw [show RQ.Parser.new.getFunction "count" =
          some ⟨[RQ.ExpressionType.nodes], RQ.ExpressionType.value⟩ from rfl] at h
      injection h with h
      subst h
      exact ⟨Serde.countFn, rfl, rfl⟩
    · by_cases h2 : "length" = name
      · subst h2
        rw [show RQ.Parser.new.getFunction "length" =
            some ⟨[RQ.ExpressionType.value], RQ.ExpressionType.value⟩ from rfl] at h
        injection h with h
        subst h
        exact ⟨Serde.lengthFn, rfl, rfl⟩
      · by_cases h3 : "match" = name
        · subst h3
          rw [show RQ.Parser.new.getFunction "match" =
              some ⟨[RQ.ExpressionType.value, RQ.ExpressionType.value],
                RQ.ExpressionType.logical⟩ from rfl] at h
          injection h with h
          subst h
          exact ⟨Serde.matchFn m, rfl, rfl⟩
        · by_cases h4 : "search" = name
          · subst h4
            rw [show RQ.Parser.new.getFunction "search" =
                some ⟨[RQ.ExpressionType.value, RQ.ExpressionType.value],
                  RQ.ExpressionType.logical⟩ from rfl] at h
            injection h with h
            subst h
            exact ⟨Serde.searchFn s, rfl, rfl⟩
          · by_cases h5 : "value" = name
            · subst h5
              rw [show RQ.Parser.new.getFunction "value" =
                  some ⟨[RQ.ExpressionType.nodes], RQ.ExpressionType.value⟩
                    from rfl] at h
              injection h with h
              subst h
              exact ⟨Serde.valueFn, rfl, rfl⟩
            · exfalso
              unfold RQ.Parser.getFunction at h
              cases hf : (RQ.Parser.new.functions.find? fun kv => kv.1 = name) with
              | none => rw [hf] at h; exact Option.noConfusion h
              | some kv =>
                  have hp := List.find?_some hf
                  have hm := List.mem_of_find?_eq_some hf
                  simp only [RQ.Parser.new, RQ.standard_functions,
                    List.mem_cons, List.not_mem_nil, or_false] at hm
                  rcases hm with rfl | rfl | rfl | rfl | rfl
                  · simp at hp; exact h1 hp
                  · simp at hp; exact h2 hp
                  · simp at hp; exact h3 hp
                  · simp at hp; exact h4 hp
                  · simp at hp; exact h5 hp

/-- Witness for C6 at concrete inputs: a filter query calling length()
inside a comparison over a two-element document, a missing member, an
out-of-range index, and the count registration. -/
theorem evaluation_never_errors_witness :
    (∃ ns, Serde.Query.find
        (Serde.Query.mk [Serde.Segment.child [Serde.Selector.filter
          (Serde.FilterExpression.comparison
            (Serde.FilterExpression.function "length"
              [Serde.FilterExpression.relativeQuery
                (Serde.Query.mk [Serde.Segment.child [Serde.Selector.name "a"]])])
            Serde.ComparisonOperator.gt
            (Serde.FilterExpression.int 1))]])
        (JsonValue.arr [JsonValue.obj [("a", JsonValue.str "xy")], JsonValue.obj []])
        (Serde.standardEnv (fun _ _ => false) (fun _ _ => false)) = Except.ok ns) ∧
      Serde.Selector.resolve (Serde.Selector.name "missing")
        { value := JsonValue.obj [("a", JsonValue.int 1)], location := "$" }
        { env := Serde.standardEnv (fun _ _ => false) (fun _ _ => false),
          root := JsonValue.null } = Except.ok [] ∧
      Serde.Selector.resolve (Serde.Selector.index 9)
        { value := JsonValue.arr [JsonValue.int 1], location := "$" }
        { env := Serde.standardEnv (fun _ _ => false) (fun _ _ => false),
          root := JsonValue.null } = Except.ok [] ∧
      ∃ ext, (Serde.standardEnv (fun _ _ => false)
          (fun _ _ => false)).function_register "count" = some ext ∧
        ext.sig.param_types.length =
          (⟨[RQ.ExpressionType.nodes], RQ.ExpressionType.value⟩ :
            RQ.FunctionSignature).param_types.length :=
  ⟨evaluation_never_errors.1 (fun _ _ => false) (fun _ _ => false) _ _ (by rfl),
   evaluation_never_errors.2.1 "missing" _ _ (by rfl),
   evaluation_never_errors.2.2.1 9 [JsonValue.int 1] _ _ (by rfl) (by rfl),
   evaluation_never_errors.2.2.2 (fun _ _ => false) (fun _ _ => false) "count" _
     (by rfl)⟩

/-- C10: a parser-accepted comparison never reaches the unreachable branch
of eq. In a safe environment a comparison with well-typed, comparable
operands evaluates to a boolean, never to the panic marker; after the
singleton coercion two operand results that are both node lists are both
empty; and compare is total on compare-safe operands. -/
theorem comparison_never_panics :
    (∀ (l r : Serde.FilterExpression) (op : Serde.ComparisonOperator)
        (current : JsonValue) (c : Serde.QueryContext),
      Serde.Environment.safe c.env →
      Serde.exprWT c.env (Serde.FilterExpression.comparison l op r) = true →
      ∃ b : Bool, Serde.FilterExpression.evaluate
          (Serde.FilterExpression.comparison l op r) current c =
        Except.ok (Serde.FilterExpressionResult.bool b)) ∧
      (∀ x y : Serde.FilterExpressionResult,
        Serde.compareSafe x = true → Serde.compareSafe y = true →
        ∀ ns ms,
          Serde.nodes_or_singular x = Serde.FilterExpressionResult.nodes ns →
          Serde.nodes_or_singular y = Serde.FilterExpressionResult.nodes ms →
          ns = [] ∧ ms = []) ∧
      (∀ (x y : Serde.FilterExpressionResult) (op : Serde.ComparisonOperator),
        Serde.compareSafe x = true → Serde.compareSafe y = true →
        ∃ b, Serde.compare x op y = Except.ok b) := by
  refine ⟨?_, ?_, fun x y op hx hy => compare_ok x y op hx hy⟩
  · intro l r op current c hsafe hwt
    simp only [Serde.exprWT, Bool.and_eq_true] at hwt
    rcases hwt with ⟨⟨⟨hl, hr⟩, hcl⟩, hcr⟩
    obtain ⟨lv, hlv, hlsafe⟩ :=
      (serde_eval_ok_all (sizeOf l)).1 l (le_refl _) current c hsafe hl
    obtain ⟨rv, hrv, hrsafe⟩ :=
      (serde_eval_ok_all (sizeOf r)).1 r (le_refl _) current c hsafe hr
    obtain ⟨b, hb⟩ := compare_ok lv rv op (hlsafe hcl) (hrsafe hcr)
    refine ⟨b, ?_⟩
    cases b <;> simp [Serde.FilterExpression.evaluate, hlv, hrv, hb]
  · intro x y hx hy ns ms hnx hny
    have h1 := nodes_or_singular_safe x hx
    have h2 := nodes_or_singular_safe y hy
    rw [hnx] at h1
    rw [hny] at h2
    simp only [Serde.emptyOrNotNodes, List.isEmpty_iff] at h1 h2
    exact ⟨h1, h2⟩

/-- Witness for C10 at concrete inputs: a singular-query-to-literal
comparison under the standard register, two empty coerced node lists, and
a concrete total comparison. -/
theorem comparison_never_panics_witness :
    (∃ b : Bool, Serde.FilterExpression.evaluate
        (Serde.FilterExpression.comparison
          (Serde.FilterExpression.relativeQuery
            (Serde.Query.mk [Serde.Segment.child [Serde.Selector.name "a"]]))
          Serde.ComparisonOperator.eq
          (Serde.FilterExpression.int 7))
        (JsonValue.obj [("a", JsonValue.int 7)])
        { env := Serde.standardEnv (fun _ _ => false) (fun _ _ => false),
          root := JsonValue.null } =
      Except.ok (Serde.FilterExpressionResult.bool b)) ∧
      ([] : List Serde.Node) = [] ∧ ([] : List Serde.Node) = [] ∧
      ∃ b, Serde.compare (Serde.FilterExpressionResult.int 1)
        Serde.ComparisonOperator.lt
        (Serde.FilterExpressionResult.int 2) = Except.ok b :=
  ⟨comparison_never_panics.1
      (Serde.FilterExpression.relativeQuery
        (Serde.Query.mk [Serde.Segment.child [Serde.Selector.name "a"]]))
      (Serde.FilterExpression.int 7) Serde.ComparisonOperator.eq
      (JsonValue.obj [("a", JsonValue.int 7)])
      { env := Serde.standardEnv (fun _ _ => false) (fun _ _ => false),
        root := JsonValue.null }
      (standardEnv_safe (fun _ _ => false) (fun _ _ => false)) (by rfl),
    (comparison_never_panics.2.1
      (Serde.FilterExpressionResult.nodes [])
      (Serde.FilterExpressionResult.nodes []) (by rfl) (by rfl) [] []
      (by rfl) (by rfl)).1,
    (comparison_never_panics.2.1
      (Serde.FilterExpressionResult.nodes [])
      (Serde.FilterExpressionResult.nodes []) (by rfl) (by rfl) [] []
      (by rfl) (by rfl)).2,
    comparison_never_panics.2.2 (Serde.FilterExpressionResult.int 1)
      (Serde.FilterExpressionResult.int 2) Serde.ComparisonOperator.lt
      (by rfl) (by rfl)⟩
